import Mathlib

/-!
# Masked-aggregation scripts of ns-3-state-est: wire text, parser and installers

A shallow embedding of

* `scratch/Multiple-Lead-Meters-Script.cc` (class `MeshTest`: the six
  `InstallApplication...` methods that draw, combine, encode and hand out masks, and the
  `switch` of `Run` that calls them),
* `src/applications/model/onoff-mlm.cc` (`OnOffMLM::SendPacket`: the parser of the
  `ObfsValues` text and the packet built from it; `StartApplication`, `StopApplication`,
  `CancelEvents` and `ScheduleNextTx`: the one event the sender keeps in the simulator),
* `scratch/Single-Gateway-Obfuscation.cc` (the mask loop of `MeshTest::Run` and
  `InstallApplicationGatewayToSMs`), and
* `src/applications/model/packet-sink-ts.cc` (the lengths computed by
  `PacketSinkTs::HandleRead`),

followed by the properties proved about them.

Conventions.  A `std::string` is a `List Char`.  A C `int` is an `Int`; the result of an
`int` addition and of the conversion done by `atoi` is brought back into the 32-bit range by
`toInt32`.  A step whose behaviour C leaves undefined (a write past a `calloc` block, a read
through a pointer that was never assigned) makes the embedded function return `none`; the
program itself reports no error in these cases.
-/

namespace StateEst

/-! ## Text and numerals -/

/-- A `std::string`, character by character. -/
abbrev Text := List Char

/-- The value of an `int` expression whose mathematical value is `x`: two's-complement
reduction into `[-2^31, 2^31)`. -/
def toInt32 (x : Int) : Int := (x + 2147483648) % 4294967296 - 2147483648

/-- Addition of two `int` operands. -/
def addInt (a b : Int) : Int := toInt32 (a + b)

/-- The text of `stream << n` for a non-negative `n`: the decimal numeral, no leading zero. -/
def natToText (n : Nat) : Text := Nat.toDigits 10 n

/-- The text of `stream << i` for an `int`: a minus sign for negative values, then the decimal numeral of
the magnitude. -/
def intToText (i : Int) : Text :=
  if i < 0 then '-' :: natToText i.natAbs else natToText i.toNat

/-- The C function `isspace` in the C locale: space, and the control characters 9 to 13. -/
def isspace (c : Char) : Bool := c.toNat == 32 || (9 ≤ c.toNat && c.toNat ≤ 13)

/-- The C function `isdigit`. -/
def isdigit (c : Char) : Bool := 48 ≤ c.toNat && c.toNat ≤ 57

/-- The digit loop of `strtol` in base 10: the value of the longest run of digits at the
front of the text, accumulated left to right. -/
def strtolDigits : Text → Nat → Nat
  | [], acc => acc
  | c :: cs, acc => if isdigit c then strtolDigits cs (acc * 10 + (c.toNat - 48)) else acc

/-- The call `strtol (s, NULL, 10)` on a 64-bit `long`: leading white space is skipped, one sign is
accepted, the digits are read, and the value saturates at `LONG_MIN` and `LONG_MAX`.  A text
with no digits at that place gives 0. -/
def strtol (s : Text) : Int :=
  match s.dropWhile isspace with
  | '-' :: r => max (-9223372036854775808) (-(strtolDigits r 0 : Int))
  | '+' :: r => min 9223372036854775807 (strtolDigits r 0 : Int)
  | r => min 9223372036854775807 (strtolDigits r 0 : Int)

/-- The call `atoi (s)`, which is `(int) strtol (s, NULL, 10)`. -/
def atoi (s : Text) : Int := toInt32 (strtol s)

/-- What one `std::getline (stream, str, delim)` extracts from a non-empty unread text: the
characters before the first `delim` (the delimiter is consumed and dropped) and the text that
stays unread. -/
def splitAtDelim (delim : Char) : Text → Text × Text
  | [] => ([], [])
  | c :: cs =>
    if c = delim then ([], cs)
    else ((c :: (splitAtDelim delim cs).1), (splitAtDelim delim cs).2)

/-- The call `std::getline (stream, str, delim)` where `stream` still holds the unread text
`unread`: `none` when the stream converts to `false` (nothing could be extracted),
otherwise the string read and the text left unread. -/
def getline (unread : Text) (delim : Char) : Option (Text × Text) :=
  match unread with
  | [] => none
  | _ :: _ => some (splitAtDelim delim unread)

/-- The call `s.find (c)`: the index of the first `c`, `none` standing for `std::string::npos`. -/
def find (c : Char) : Text → Option Nat
  | [] => none
  | d :: ds => if d = c then some 0 else (find c ds).map (· + 1)

/-- The call `s.substr (s.find ("$") + 1)`.  The sum is computed in `size_t`, so `npos + 1` is 0 and a
text without `$` is kept whole. -/
def substrAfterDollar (s : Text) : Text :=
  match find '$' s with
  | some p => s.drop (p + 1)
  | none => s.drop ((18446744073709551615 + 1) % 18446744073709551616)

/-! ## `OnOffMLM::SendPacket` -/

/-- The loop
`int x = 0; while (getline (stream, splitted_Values, '*')) { obfsVector[x] = atoi (...); x++; }`.
`obfsVector` is the `calloc` block; a store at an index outside it is undefined (`none`).
The first argument bounds the number of iterations; every iteration consumes at least one
character, so the length of the text plus one is always enough. -/
def readValues : Nat → Text → List Int → Nat → Option (List Int)
  | 0, _, _, _ => none
  | fuel + 1, unread, obfsVector, x =>
    match getline unread '*' with
    | none => some obfsVector
    | some (splitted_Values, rest) =>
      if x < obfsVector.length then
        readValues fuel rest (obfsVector.set x (atoi splitted_Values)) (x + 1)
      else none

/-- What the parsing block of `SendPacket` leaves behind. -/
structure Parsed where
  /-- The local `arraySize`. -/
  arraySize : Int
  /-- The `calloc` block `obfsVector` after the token loop. -/
  obfsVector : List Int
  /-- The member `m_obfsValues` after the `substr` assignment. -/
  m_obfsValues : Text
  deriving DecidableEq, Repr

/-- The block run by `SendPacket` for `m_trsmode` 0, 1 and 2 (the three copies are the same
statements): the text before the first `$` is the declared count, `calloc` gives a zeroed
block of that many `int`, `m_obfsValues` is cut after the first `$`, and every `*`-separated
piece of the rest is stored through `atoi`.  A negative count has no defined behaviour
(the block and the array `oVector` declared from it). -/
def parseObfsValues (m_obfsValues : Text) : Option Parsed :=
  let splitted_Values2 := (splitAtDelim '$' m_obfsValues).1
  let arraySize := atoi splitted_Values2
  if arraySize < 0 then none
  else
    let obfsVector := List.replicate arraySize.toNat (0 : Int)
    let rest := substrAfterDollar m_obfsValues
    match readValues (rest.length + 1) rest obfsVector 0 with
    | none => none
    | some filled => some { arraySize := arraySize, obfsVector := filled, m_obfsValues := rest }

/-- The vector that `SendPacket` copies into `oVector` and then into the packet: the first
`arraySize` entries of `obfsVector`. -/
def oVector (p : Parsed) : List Int := p.obfsVector.take p.arraySize.toNat

/-- The vector the parser of `SendPacket` reads out of a payload text. -/
def decode (text : Text) : Option (List Int) := (parseObfsValues text).map oVector

/-- The `Packet` created from `plainText`: `plainTextLength` bytes, of which the leading
`sizeof (oVector)` bytes are the `int` values copied by `memcpy`; the last `sizeof (int)`
bytes of the `malloc` block are never written. -/
structure Packet where
  /-- The `int` values at the front of the buffer, in index order. -/
  values : List Int
  /-- The byte length given to `Create<Packet>`. -/
  size : Nat
  deriving DecidableEq, Repr

/-- The members of `OnOffMLM` that `SendPacket` reads or writes, with the packets handed to
`m_socket->Send` so far. -/
structure OnOffMLM where
  /-- Attribute `TransMode`. -/
  m_trsmode : Nat
  /-- Attribute `ObfsValues`. -/
  m_obfsValues : Text
  /-- Attribute `PacketSize`. -/
  m_pktSize : Nat
  /-- Attribute `MaxBytes`. -/
  m_maxBytes : Nat
  /-- Bytes counted as sent (`uint32_t`). -/
  m_totBytes : Nat
  /-- Packets given to the socket, oldest first. -/
  sent : List Packet
  deriving DecidableEq, Repr

/-- The method `OnOffMLM::SendPacket`.  For `m_trsmode` 0, 1 or 2 the text is parsed, the values are
copied into `oVector`, a buffer of `sizeof (int) + sizeof (oVector)` bytes receives them, the
packet made from it goes to the socket and `m_totBytes` grows by `m_pktSize`.  With another
`m_trsmode` the locals `obfsVector` and `arraySize` are read without having been set. -/
def SendPacket (app : OnOffMLM) : Option OnOffMLM :=
  if app.m_trsmode = 0 ∨ app.m_trsmode = 1 ∨ app.m_trsmode = 2 then
    match parseObfsValues app.m_obfsValues with
    | none => none
    | some p =>
      let plainTextLength := 4 + 4 * p.arraySize.toNat
      if 2147483647 < plainTextLength then none
      else
        some { app with
          m_obfsValues := p.m_obfsValues
          m_totBytes := (app.m_totBytes + app.m_pktSize) % 4294967296
          sent := app.sent ++ [{ values := oVector p, size := plainTextLength }] }
  else none

/-! ## `MeshTest` of `Multiple-Lead-Meters-Script.cc` -/

/-- The expression `rand () % 40 + (-20)` for the value `r` returned by `rand ()`. -/
def maskDraw (r : Nat) : Int := (r : Int) % 40 + (-20)

/-- The expression `rand () % 50 + (50)` for the value `r` returned by `rand ()`. -/
def secondStageDraw (r : Nat) : Int := (r : Int) % 50 + 50

/-- The loop `for (z = 0; z < meterSize; z++) obfsVector[z] = rand () % 40 + (-20);` where
`rand z` is what the call number `z` of `rand ()` returns. -/
def drawMasks (rand : Nat → Nat) (meterSize : Nat) : List Int :=
  (List.range meterSize).map fun z => maskDraw (rand z)

/-- The text built by
`values << meterSize << "$"; for (z = 0; z < meterSize; z++) values << obfsVector[z] << star;`
for the array `obfsVector` of `meterSize` entries. -/
def encodeValues (obfsVector : List Int) : Text :=
  obfsVector.foldl (fun values v => values ++ intToText v ++ ['*'])
    (intToText obfsVector.length ++ ['$'])

/-- The text built by `val << 1 << "$" << v << "*"`. -/
def singlePayload (v : Int) : Text := intToText 1 ++ ['$'] ++ intToText v ++ ['*']

/-- The loop
`for (y = 0; y < meterSize; y++) m_obfVector10_plus_obfVector01[y] = m_obfVector10[y] + m_obfVector01[y];`
on the freshly `calloc`-ed block of `meterSize` entries.  An index outside one of the two
operand vectors is an undefined read. -/
def combineMasks (meterSize : Nat) (m_obfVector10 m_obfVector01 : List Int) :
    Option (List Int) :=
  (List.range meterSize).foldlM
    (fun combined y =>
      match m_obfVector10[y]?, m_obfVector01[y]? with
      | some a, some b => some (combined.set y (addInt a b))
      | _, _ => none)
    (List.replicate meterSize (0 : Int))

/-- The indices visited by `for (i = start; i < n; i += 2)`; the first argument bounds the
number of iterations (`n` is enough). -/
def stepLoop : Nat → Nat → Nat → List Nat
  | 0, _, _ => []
  | fuel + 1, i, n => if i < n then i :: stepLoop fuel (i + 2) n else []

/-- The Members served by Lead1: `for (i = 3; i < m_ySize*m_xSize; i += 2)`. -/
def oddMeters (n : Nat) : List Nat := stepLoop n 3 n

/-- The Members served by Lead0: `for (i = 2; i < m_ySize*m_xSize; i += 2)`. -/
def evenMeters (n : Nat) : List Nat := stepLoop n 2 n

/-- An `OnOffMLM` sender as configured through `OnOffHelperMLM` and installed on a node.
Start and stop times (`double` seconds) and port numbers are left out. -/
structure SenderApp where
  /-- Socket factory given to the helper. -/
  socketFactory : String
  /-- The index `k` of `interfaces.GetAddress (k)` in the remote address. -/
  remote : Int
  /-- The index `k` of `nodes.Get (k)` the application is installed on. -/
  node : Int
  /-- Attribute `PacketSize` (512 unless set). -/
  packetSize : Nat
  /-- Attribute `FirstSent` in seconds (30 unless set). -/
  firstSent : Int
  /-- Attribute `TransMode`. -/
  transMode : Nat
  /-- Attribute `MeterSize`. -/
  meterSize : Int
  /-- Attribute `ObfsValues` (empty unless set). -/
  obfsValues : Text
  deriving DecidableEq, Repr

/-- A `PacketSinkTs` receiver installed through `PacketSinkHelperTs`. -/
structure SinkApp where
  /-- Socket factory given to the helper. -/
  socketFactory : String
  /-- The index `k` of `interfaces.GetAddress (k)` in the listening address. -/
  address : Int
  /-- The index `k` of `nodes.Get (k)` the sink is installed on. -/
  node : Int
  deriving DecidableEq, Repr

/-- An installed application. -/
inductive App where
  | sender (a : SenderApp)
  | sink (a : SinkApp)
  deriving DecidableEq, Repr

/-- The members of `MeshTest` used by the installers.  The four `int*` members are not
initialised by the constructor: `none` is a pointer that has not been assigned yet. -/
structure MeshTest where
  m_xSize : Int
  m_ySize : Int
  m_sink : Int
  m_UdpTcpMode : String
  m_typeOfOperation : Int
  lead_packetSize : Nat
  meter_packetSize : Nat
  m_obfVector01 : Option (List Int)
  m_obfVector10 : Option (List Int)
  m_obfVector10_plus_obfVector01 : Option (List Int)
  m_finalObfVector : Option (List Int)
  /-- The values the coming calls of `rand ()` return, the next one at index 0. -/
  rand : Nat → Nat
  /-- The applications installed so far, in order of installation. -/
  installed : List App

/-- The `int` product `m_ySize*m_xSize`: the number of nodes. -/
def nodeCount (t : MeshTest) : Int := toInt32 (t.m_ySize * t.m_xSize)

/-- For every installed sender, in order of installation: the node it runs on, the node its
remote address belongs to, and its `ObfsValues` text. -/
def senderRoutes (apps : List App) : List (Int × Int × Text) :=
  apps.filterMap fun a =>
    match a with
    | App.sender s => some (s.node, s.remote, s.obfsValues)
    | App.sink _ => none

/-- A sender with the attribute defaults of `OnOffMLM::GetTypeId`. -/
def defaultSender (socketFactory : String) (remote node : Int) : SenderApp :=
  { socketFactory := socketFactory, remote := remote, node := node, packetSize := 512,
    firstSent := 30, transMode := 0, meterSize := 0, obfsValues := [] }

/-- The body of `InstallApplicationLead0ToLead1`.  `seeded` is the sequence of values that
`rand ()` returns after `srand (time (0))`. -/
def InstallApplicationLead0ToLead1 (t : MeshTest) (seeded : Nat → Nat) : Option MeshTest :=
  let n := nodeCount t
  let t1 := { t with m_obfVector01 := some (List.replicate n.toNat 0) }
  if t1.m_UdpTcpMode = "udp" then
    some { t1 with
      installed := t1.installed ++
        [App.sender { defaultSender "ns3::UdpSocketFactory" 1 0 with
            firstSent := 10, transMode := 0, meterSize := n },
         App.sink { socketFactory := "ns3::UdpSocketFactory", address := t1.m_sink,
                    node := t1.m_sink }] }
  else if n < 0 then none
  else
    let obfsVector := drawMasks seeded n.toNat
    some { t1 with
      rand := fun j => seeded (j + n.toNat)
      m_obfVector01 := some obfsVector
      installed := t1.installed ++
        [App.sender { defaultSender "ns3::TcpSocketFactory" 1 0 with
            packetSize := t1.meter_packetSize, transMode := 0, meterSize := n,
            obfsValues := encodeValues obfsVector },
         App.sink { socketFactory := "ns3::TcpSocketFactory", address := 1, node := 1 }] }

/-- The body of `InstallApplicationLead1ToLead0`. -/
def InstallApplicationLead1ToLead0 (t : MeshTest) : Option MeshTest :=
  let n := nodeCount t
  if n < 0 then none
  else
    let t1 := { t with
      m_obfVector10 := some (List.replicate n.toNat 0)
      m_finalObfVector := some (List.replicate n.toNat 0) }
    if t1.m_UdpTcpMode = "udp" then
      some { t1 with
        installed := t1.installed ++
          [App.sender { defaultSender "ns3::UdpSocketFactory" 0 t1.m_sink with
              firstSent := 10, transMode := 0, meterSize := n },
           App.sink { socketFactory := "ns3::UdpSocketFactory", address := 0, node := 0 }] }
    else
      let obfsVector := drawMasks t1.rand n.toNat
      match t1.m_obfVector01 with
      | none => none
      | some m_obfVector01 =>
        match combineMasks n.toNat obfsVector m_obfVector01 with
        | none => none
        | some combined =>
          some { t1 with
            rand := fun j => t1.rand (j + n.toNat)
            m_obfVector10 := some obfsVector
            m_obfVector10_plus_obfVector01 := some combined
            installed := t1.installed ++
              [App.sender { defaultSender "ns3::TcpSocketFactory" 0 1 with
                  packetSize := t1.lead_packetSize, transMode := 0, meterSize := n,
                  obfsValues := encodeValues obfsVector },
               App.sink { socketFactory := "ns3::TcpSocketFactory", address := 0, node := 0 }] }

/-- One pass of the loop of `InstallApplicationLead1ToOddMeters` for the Member `i`. -/
def lead1ToOddMeter (t : MeshTest) (i : Nat) : Option MeshTest :=
  let n := nodeCount t
  if t.m_UdpTcpMode = "udp" then
    some { t with
      installed := t.installed ++
        [App.sender { defaultSender "ns3::UdpSocketFactory" 0 t.m_sink with
            firstSent := 10, transMode := 1, meterSize := n },
         App.sink { socketFactory := "ns3::UdpSocketFactory", address := 0, node := 0 }] }
  else
    match t.m_obfVector10_plus_obfVector01 with
    | none => none
    | some combined =>
      match combined[i]? with
      | none => none
      | some v =>
        some { t with
          installed := t.installed ++
            [App.sender { defaultSender "ns3::TcpSocketFactory" i 1 with
                packetSize := t.lead_packetSize
                firstSent := toInt32 (30 * (n / 2 - 1))
                transMode := 1, meterSize := n, obfsValues := singlePayload v },
             App.sink { socketFactory := "ns3::TcpSocketFactory", address := i, node := i }] }

/-- The body of `InstallApplicationLead1ToOddMeters`. -/
def InstallApplicationLead1ToOddMeters (t : MeshTest) : Option MeshTest :=
  if nodeCount t < 0 then none
  else (oddMeters (nodeCount t).toNat).foldlM lead1ToOddMeter t

/-- One pass of the loop of `InstallApplicationLead0ToEvenMeters` for the Member `i`. -/
def lead0ToEvenMeter (t : MeshTest) (i : Nat) : Option MeshTest :=
  let n := nodeCount t
  if t.m_UdpTcpMode = "udp" then
    some { t with
      installed := t.installed ++
        [App.sender { defaultSender "ns3::UdpSocketFactory" i t.m_sink with
            firstSent := 30, transMode := 1, meterSize := n },
         App.sink { socketFactory := "ns3::UdpSocketFactory", address := 0, node := 0 }] }
  else
    match t.m_obfVector10_plus_obfVector01 with
    | none => none
    | some combined =>
      match combined[i]? with
      | none => none
      | some v =>
        some { t with
          installed := t.installed ++
            [App.sender { defaultSender "ns3::TcpSocketFactory" i 0 with
                packetSize := t.lead_packetSize, firstSent := 30
                transMode := 1, meterSize := n, obfsValues := singlePayload v },
             App.sink { socketFactory := "ns3::TcpSocketFactory", address := i, node := i }] }

/-- The body of `InstallApplicationLead0ToEvenMeters`. -/
def InstallApplicationLead0ToEvenMeters (t : MeshTest) : Option MeshTest :=
  if nodeCount t < 0 then none
  else (evenMeters (nodeCount t).toNat).foldlM lead0ToEvenMeter t

/-- The statements
`int number = rand () % 50 + (50); m_finalObfVector[i] = m_obfVector10_plus_obfVector01[i] + number;`
shared by the two collection installers, with the value then written into the payload.
Gives the state after the store and the stored value. -/
def blindMeter (t : MeshTest) (i : Nat) : Option (MeshTest × Int) :=
  match t.m_obfVector10_plus_obfVector01, t.m_finalObfVector with
  | some combined, some final =>
    match combined[i]? with
    | none => none
    | some offset =>
      if i < final.length then
        let number := secondStageDraw (t.rand 0)
        let v := addInt offset number
        some ({ t with
          rand := fun j => t.rand (j + 1)
          m_finalObfVector := some (final.set i v) }, v)
      else none
  | _, _ => none

/-- One pass of the loop of `InstallApplicationOddMetersToLead1` for the Member `i`. -/
def oddMeterToLead1 (t : MeshTest) (i : Nat) : Option MeshTest :=
  let n := nodeCount t
  if t.m_UdpTcpMode = "udp" then
    some { t with
      installed := t.installed ++
        [App.sender { defaultSender "ns3::UdpSocketFactory" t.m_sink 0 with
            firstSent := 45, transMode := 2, meterSize := n }] }
  else
    match blindMeter t i with
    | none => none
    | some (t1, v) =>
      some { t1 with
        installed := t1.installed ++
          [App.sender { defaultSender "ns3::TcpSocketFactory" 1 i with
              packetSize := t1.meter_packetSize, firstSent := 45
              transMode := 2, meterSize := n, obfsValues := singlePayload v }] }

/-- The body of `InstallApplicationOddMetersToLead1`: the loop over the odd Members, then
the sink on Lead1. -/
def InstallApplicationOddMetersToLead1 (t : MeshTest) : Option MeshTest :=
  if nodeCount t < 0 then none
  else
    ((oddMeters (nodeCount t).toNat).foldlM oddMeterToLead1 t).map fun t1 =>
      if t1.m_UdpTcpMode = "udp" then
        { t1 with installed := t1.installed ++
            [App.sink { socketFactory := "ns3::UdpSocketFactory", address := 0, node := 0 }] }
      else
        { t1 with installed := t1.installed ++
            [App.sink { socketFactory := "ns3::TcpSocketFactory", address := 1, node := 1 }] }

/-- One pass of the loop of `InstallApplicationEvenMetersToLead0` for the Member `i`. -/
def evenMeterToLead0 (t : MeshTest) (i : Nat) : Option MeshTest :=
  let n := nodeCount t
  if t.m_UdpTcpMode = "udp" then
    some { t with
      installed := t.installed ++
        [App.sender { defaultSender "ns3::UdpSocketFactory" 0 0 with
            firstSent := 45, transMode := 2, meterSize := n }] }
  else
    match blindMeter t i with
    | none => none
    | some (t1, v) =>
      some { t1 with
        installed := t1.installed ++
          [App.sender { defaultSender "ns3::TcpSocketFactory" 0 i with
              packetSize := t1.meter_packetSize, firstSent := 45
              transMode := 2, meterSize := n, obfsValues := singlePayload v }] }

/-- The body of `InstallApplicationEvenMetersToLead0`: the loop over the even Members, then
the sink on Lead0. -/
def InstallApplicationEvenMetersToLead0 (t : MeshTest) : Option MeshTest :=
  if nodeCount t < 0 then none
  else
    ((evenMeters (nodeCount t).toNat).foldlM evenMeterToLead0 t).map fun t1 =>
      if t1.m_UdpTcpMode = "udp" then
        { t1 with installed := t1.installed ++
            [App.sink { socketFactory := "ns3::UdpSocketFactory", address := t1.m_sink,
                        node := t1.m_sink }] }
      else
        { t1 with installed := t1.installed ++
            [App.sink { socketFactory := "ns3::TcpSocketFactory", address := 0, node := 0 }] }

/-- The statement `switch (m_typeOfOperation)` of `MeshTest::Run`, which installs the
applications of the session: the calls of each `case` in their order (the calls that are
commented out in `case 1` are not made); any other value installs nothing.  `seeded` is
handed to `InstallApplicationLead0ToLead1`. -/
def Run (t : MeshTest) (seeded : Nat → Nat) : Option MeshTest :=
  if t.m_typeOfOperation = 1 then
    (InstallApplicationLead0ToLead1 t seeded).bind fun t1 =>
      (InstallApplicationLead1ToLead0 t1).bind InstallApplicationLead1ToOddMeters
  else if t.m_typeOfOperation = 2 then
    (InstallApplicationLead1ToOddMeters t).bind fun t1 =>
      (InstallApplicationLead0ToEvenMeters t1).bind InstallApplicationLead1ToLead0
  else if t.m_typeOfOperation = 3 then
    (InstallApplicationOddMetersToLead1 t).bind fun t1 =>
      (InstallApplicationEvenMetersToLead0 t1).bind fun t2 =>
        InstallApplicationLead0ToLead1 t2 seeded
  else some t

/-- The loop of `MeshTest::Run` in `Single-Gateway-Obfuscation.cc` that fills the gateway's
mask vector: `for (z = 0; z < m_size; z++) m_obfVector10_plus_obfVector01[z] = rand () % 40 + (-20);`
on the `calloc` block of `m_size` entries. -/
def gatewayMasks (rand : Nat → Nat) (m_size : Nat) : List Int :=
  (List.range m_size).foldl (fun block z => block.set z (maskDraw (rand z)))
    (List.replicate m_size (0 : Int))

/-- An `OnOffSGO` sender as configured through `OnOffHelperSGO` in
`Single-Gateway-Obfuscation.cc`.  Only what the script sets is recorded: an attribute the
script leaves alone is `none` (its default is declared in `onoff-sgo.cc`). -/
structure GatewaySender where
  /-- Socket factory given to the helper. -/
  socketFactory : String
  /-- The index `k` of `interfaces.GetAddress (k)` in the remote address. -/
  remote : Int
  /-- The index `k` of `nodes.Get (k)` the application is installed on. -/
  node : Int
  /-- Attribute `FirstSent` in seconds, when set. -/
  firstSent : Option Int
  /-- Attribute `TransMode`. -/
  transMode : Nat
  /-- Attribute `MeterSize`. -/
  meterSize : Int
  /-- Attribute `ObfsValues`, when set. -/
  obfsValues : Option Text
  deriving DecidableEq, Repr

/-- An application installed by the single-gateway script. -/
inductive GatewayApp where
  | sender (a : GatewaySender)
  | sink (a : SinkApp)
  deriving DecidableEq, Repr

/-- The members of the class `MeshTest` of `Single-Gateway-Obfuscation.cc` used by
`InstallApplicationGatewayToSMs`.  `m_size` comes from the option `--size`. -/
structure GatewayMeshTest where
  m_xSize : Int
  m_ySize : Int
  m_sink : Int
  m_size : Int
  m_UdpTcpMode : String
  m_obfVector10_plus_obfVector01 : Option (List Int)
  /-- The applications installed so far, in order of installation. -/
  installed : List GatewayApp
  deriving DecidableEq, Repr

/-- The statements of `MeshTest::Run` in `Single-Gateway-Obfuscation.cc` that allocate and
fill the gateway's mask vector, where `rand z` is what the call number `z` of `rand ()`
returns.  They come before the `switch` that calls the installers; what `Run` does in
between (key files, nodes, internet stack) touches none of the members kept here.  With a
negative `m_size` the `calloc` request cannot be met and the loop does not run. -/
def allocateGatewayMasks (t : GatewayMeshTest) (rand : Nat → Nat) : GatewayMeshTest :=
  { t with
    m_obfVector10_plus_obfVector01 :=
      if t.m_size < 0 then none else some (gatewayMasks rand t.m_size.toNat) }

/-- One pass of the loop of `InstallApplicationGatewayToSMs` for the Member `i`.  In the TCP
branch the payload is built from `m_obfVector10_plus_obfVector01[i-1]`. -/
def gatewayToSM (t : GatewayMeshTest) (i : Nat) : Option GatewayMeshTest :=
  if t.m_UdpTcpMode = "udp" then
    some { t with
      installed := t.installed ++
        [GatewayApp.sender
           { socketFactory := "ns3::UdpSocketFactory", remote := 0, node := t.m_sink,
             firstSent := some 10, transMode := 1,
             meterSize := toInt32 (t.m_ySize * t.m_xSize), obfsValues := none },
         GatewayApp.sink { socketFactory := "ns3::UdpSocketFactory", address := 0, node := 0 }] }
  else
    match t.m_obfVector10_plus_obfVector01 with
    | none => none
    | some masks =>
      match masks[i - 1]? with
      | none => none
      | some v =>
        some { t with
          installed := t.installed ++
            [GatewayApp.sender
               { socketFactory := "ns3::TcpSocketFactory", remote := i, node := 0,
                 firstSent := none, transMode := 0, meterSize := t.m_size,
                 obfsValues := some (singlePayload v) },
             GatewayApp.sink
               { socketFactory := "ns3::TcpSocketFactory", address := i, node := i }] }

/-- The body of `InstallApplicationGatewayToSMs`: the loop `for (i = 1; i < m_size; i++)`.
The arrays `apps[m_size]` and `receiver[m_size]` have no defined meaning for a negative
`m_size`. -/
def InstallApplicationGatewayToSMs (t : GatewayMeshTest) : Option GatewayMeshTest :=
  if t.m_size < 0 then none
  else (List.range' 1 (t.m_size.toNat - 1)).foldlM gatewayToSM t

/-- For every sender installed by the single-gateway script, in order of installation: the
node it runs on, the node its remote address belongs to, and its `ObfsValues` text when the
script set one. -/
def gatewayRoutes (apps : List GatewayApp) : List (Int × Int × Option Text) :=
  apps.filterMap fun a =>
    match a with
    | GatewayApp.sender s => some (s.node, s.remote, s.obfsValues)
    | GatewayApp.sink _ => none

/-! ## `PacketSinkTs::HandleRead` -/

/-- The three `size_t` locals of one pass of the receive loop. -/
structure ReadLengths where
  packetSize : Nat
  plainTextLength : Nat
  signatureLength : Nat
  deriving DecidableEq, Repr

/-- One pass of the loop of `PacketSinkTs::HandleRead` for a received packet whose
`GetSize ()` is `size`: a packet of size 0 leaves the loop (`none`); otherwise
`packetSize = packet->GetSize ()`, `plainTextLength = sizeof (int) + sizeof (uint64_t)` and
`signatureLength = packetSize - plainTextLength`, the subtraction being done in `size_t`,
an unsigned type of 64 bits. -/
def HandleRead (size : Nat) : Option ReadLengths :=
  if size = 0 then none
  else
    let packetSize := size % 18446744073709551616
    let plainTextLength := (4 + 8) % 18446744073709551616
    some { packetSize := packetSize
           plainTextLength := plainTextLength
           signatureLength :=
             (packetSize + 18446744073709551616 - plainTextLength) % 18446744073709551616 }

/-! ## `OnOffMLM` inside the simulator -/

/-- An `OnOffMLM` application with its place in the event queue.  Times are simulator time
steps.  The application has no receiving side: `StartApplication` calls `ShutdownRecv` on
its socket, and no member is written from received data. -/
structure SenderProcess where
  /-- The members used by `SendPacket`. -/
  app : OnOffMLM
  /-- Attribute `FirstSent`. -/
  m_firstSent : Int
  /-- Whether `m_socket` has been created. -/
  m_socket : Bool
  /-- The firing time of the event held in `m_sendEvent`, `none` before the first
  `Simulator::Schedule`. -/
  m_sendEvent : Option Int
  /-- The firing times of the `SendPacket` events of this application that the simulator
  holds: scheduled, not cancelled, not run yet. -/
  scheduled : List Int
  deriving DecidableEq, Repr

/-- The method `OnOffMLM::ScheduleNextTx` at time `now`:
`m_sendEvent = Simulator::Schedule (m_firstSent, &OnOffMLM::SendPacket, this)`. -/
def ScheduleNextTx (now : Int) (p : SenderProcess) : SenderProcess :=
  { p with
    m_sendEvent := some (now + p.m_firstSent)
    scheduled := p.scheduled ++ [now + p.m_firstSent] }

/-- The method `OnOffMLM::StartApplication` at time `now`: the socket is created if it does
not exist, then `ScheduleNextTx ()` is called, whatever the state of the application. -/
def StartApplication (now : Int) (p : SenderProcess) : SenderProcess :=
  ScheduleNextTx now { p with m_socket := true }

/-- The method `OnOffMLM::CancelEvents`: `Simulator::Cancel (m_sendEvent)` removes the event
from the queue if it is still there. -/
def CancelEvents (p : SenderProcess) : SenderProcess :=
  match p.m_sendEvent with
  | some e => { p with scheduled := p.scheduled.erase e }
  | none => p

/-- The method `OnOffMLM::StopApplication`: `CancelEvents ()`, then the socket is closed. -/
def StopApplication (p : SenderProcess) : SenderProcess := CancelEvents p

/-- The simulator reaches the time `e`.  When a `SendPacket` event of the application is
queued for that time it is taken from the queue and `SendPacket` runs; its
`NS_ASSERT (m_sendEvent.IsExpired ())` stops the program (`none`) when the event held in
`m_sendEvent` is still queued.  Without such an event nothing happens. -/
def runEvent (e : Int) (p : SenderProcess) : Option SenderProcess :=
  if e ∈ p.scheduled then
    let queue := p.scheduled.erase e
    match p.m_sendEvent with
    | some held =>
      if held ∈ queue then none
      else (SendPacket p.app).map fun a => { p with app := a, scheduled := queue }
    | none => (SendPacket p.app).map fun a => { p with app := a, scheduled := queue }
  else some p

/-- The application that `OnOffHelperMLM::Install` creates from the helper's attributes:
nothing sent, no socket, no event.  `FirstSent` is given in seconds and kept in nanosecond
time steps. -/
def installedProcess (s : SenderApp) : SenderProcess :=
  { app := { m_trsmode := s.transMode, m_obfsValues := s.obfsValues, m_pktSize := s.packetSize,
             m_maxBytes := 0, m_totBytes := 0, sent := [] }
    m_firstSent := s.firstSent * 1000000000
    m_socket := false, m_sendEvent := none, scheduled := [] }

/-! ## Predicates, texts and states used in the statements -/

/-- An `int` value. -/
def IsInt32 (x : Int) : Prop := -2147483648 ≤ x ∧ x ≤ 2147483647

instance (x : Int) : Decidable (IsInt32 x) := by unfold IsInt32; infer_instance

/-- The text of a list of pieces, each followed by `*`. -/
def starred (pieces : List Text) : Text := (pieces.map fun t => t ++ ['*']).flatten

/-- A token that does not start with white space, a sign or a digit (the empty token
included): `atoi` finds no integer in it. -/
def NonNumeric (t : Text) : Prop :=
  ∀ c cs, t = c :: cs → isdigit c = false ∧ isspace c = false ∧ c ≠ '-' ∧ c ≠ '+'

/-- The state built by the constructor `MeshTest::MeshTest ()`, before `Configure`: a 2 by 2
grid, TCP mode, session type 1, the four vectors not yet allocated, nothing installed. -/
def defaultMeshTest (rand : Nat → Nat) : MeshTest :=
  { m_xSize := 2, m_ySize := 2, m_sink := 0, m_UdpTcpMode := "tcp", m_typeOfOperation := 1,
    lead_packetSize := 512, meter_packetSize := 4, m_obfVector01 := none,
    m_obfVector10 := none, m_obfVector10_plus_obfVector01 := none, m_finalObfVector := none,
    rand := rand, installed := [] }

/-- The two applications that one TCP pass of `InstallApplicationLead1ToOddMeters` installs
for Member `i` when the combined entry read is `v`. -/
def lead1OddApps (t : MeshTest) (v : Int) (i : Nat) : List App :=
  [App.sender { defaultSender "ns3::TcpSocketFactory" i 1 with
      packetSize := t.lead_packetSize
      firstSent := toInt32 (30 * (nodeCount t / 2 - 1))
      transMode := 1, meterSize := nodeCount t, obfsValues := singlePayload v },
   App.sink { socketFactory := "ns3::TcpSocketFactory", address := i, node := i }]

/-- The two applications that one TCP pass of `InstallApplicationLead0ToEvenMeters` installs
for Member `i` when the combined entry read is `v`. -/
def lead0EvenApps (t : MeshTest) (v : Int) (i : Nat) : List App :=
  [App.sender { defaultSender "ns3::TcpSocketFactory" i 0 with
      packetSize := t.lead_packetSize, firstSent := 30
      transMode := 1, meterSize := nodeCount t, obfsValues := singlePayload v },
   App.sink { socketFactory := "ns3::TcpSocketFactory", address := i, node := i }]

/-- The documented range of a peer-exchange mask. -/
def InPeerRange (m : Int) : Prop := -20 ≤ m ∧ m ≤ 20

instance (m : Int) : Decidable (InPeerRange m) := by unfold InPeerRange; infer_instance

/-- The state of Scenario A before collection: the default 2 by 2 grid in TCP mode with the
combined mask `[0, 0, 0, 20]` and a zeroed `m_finalObfVector`. -/
def scenarioMesh (rand : Nat → Nat) : MeshTest :=
  { defaultMeshTest rand with
    m_obfVector10_plus_obfVector01 := some [0, 0, 0, 20]
    m_finalObfVector := some [0, 0, 0, 0] }

/-- A sender in the state given by the constructor and the attribute defaults, with the
given mode and payload text. -/
def freshSender (m_trsmode : Nat) (m_obfsValues : Text) : OnOffMLM :=
  { m_trsmode := m_trsmode, m_obfsValues := m_obfsValues, m_pktSize := 512, m_maxBytes := 0,
    m_totBytes := 0, sent := [] }

/-- For every installed sender, in order of installation: the node it runs on, the node its
remote address belongs to, and its `TransMode` (0 for a peer exchange, 1 for a distribution,
2 for a collection). -/
def senderModes (apps : List App) : List (Int × Int × Nat) :=
  apps.filterMap fun a =>
    match a with
    | App.sender s => some (s.node, s.remote, s.transMode)
    | App.sink _ => none

/-- For every installed sender, in order of installation: the node it runs on and the
packets it has handed to its socket once it has been started at time 0 and the simulator
has reached the time of the event scheduled by that start (`none` if `SendPacket` has no
defined result). -/
def contributions (apps : List App) : List (Int × Option (List Packet)) :=
  apps.filterMap fun a =>
    match a with
    | App.sender s =>
      some (s.node,
        (runEvent (0 + s.firstSent * 1000000000)
          (StartApplication 0 (installedProcess s))).map fun p => p.app.sent)
    | App.sink _ => none

/-- What the simulator does with an `OnOffMLM` application: it calls `StartApplication` at
some time, calls `StopApplication`, or reaches a time at which an event may be due. -/
inductive SenderCall where
  | start (now : Int)
  | stop
  | reach (e : Int)
  deriving DecidableEq, Repr

/-- One call made by the simulator. -/
def call (p : SenderProcess) : SenderCall → Option SenderProcess
  | SenderCall.start now => some (StartApplication now p)
  | SenderCall.stop => some (StopApplication p)
  | SenderCall.reach e => runEvent e p

/-- A sequence of calls, in order; `none` when the program stops on an assertion or
`SendPacket` has no defined result. -/
def simulate (calls : List SenderCall) (p : SenderProcess) : Option SenderProcess :=
  calls.foldlM call p

/-- The number of `StartApplication` calls in a sequence. -/
def startCount (calls : List SenderCall) : Nat :=
  (calls.filter fun c => match c with
    | SenderCall.start _ => true
    | _ => false).length

/-- The simulator reaching the times `es` one after the other. -/
def runEvents (es : List Int) (p : SenderProcess) : Option SenderProcess :=
  es.foldlM (fun q e => runEvent e q) p

/-- A sender with `MaxBytes` 512 and the default `PacketSize` 512, carrying the one-entry
payload of the value 95 in `TransMode` 2, as installed: nothing sent, no event. -/
def limitedSender : SenderProcess :=
  { app := { m_trsmode := 2, m_obfsValues := singlePayload 95, m_pktSize := 512,
             m_maxBytes := 512, m_totBytes := 0, sent := [] }
    m_firstSent := 30000000000
    m_socket := false, m_sendEvent := none, scheduled := [] }

/-- The single-gateway script with `--size=3` in TCP mode, before the masks are drawn. -/
def gatewayOfThree : GatewayMeshTest :=
  { m_xSize := 2, m_ySize := 2, m_sink := 0, m_size := 3, m_UdpTcpMode := "tcp",
    m_obfVector10_plus_obfVector01 := none, installed := [] }

/-- A grid of six nodes (four Members) in TCP mode with a zero combined mask and a zeroed
`m_finalObfVector`, where `rand ()` returns 0 every time. -/
def sixNodeMesh : MeshTest :=
  { defaultMeshTest (fun _ => 0) with
    m_xSize := 3, m_ySize := 2
    m_obfVector10_plus_obfVector01 := some [0, 0, 0, 0, 0, 0]
    m_finalObfVector := some [0, 0, 0, 0, 0, 0] }

/-! ## Numerals: printing and reading back -/

theorem toInt32_of_isInt32 {x : Int} (h : IsInt32 x) : toInt32 x = x := by
  unfold IsInt32 at h
  unfold toInt32
  omega

theorem isdigit_digitChar {d : Nat} (h : d < 10) : isdigit (Nat.digitChar d) = true := by
  interval_cases d <;> decide

theorem digitChar_toNat {d : Nat} (h : d < 10) : (Nat.digitChar d).toNat - 48 = d := by
  interval_cases d <;> decide

theorem toDigitsCore_append (fuel : Nat) : ∀ (n : Nat) (acc : List Char),
    Nat.toDigitsCore 10 fuel n acc = Nat.toDigitsCore 10 fuel n [] ++ acc := by
  induction fuel with
  | zero => intro n acc; simp [Nat.toDigitsCore]
  | succ f ih =>
    intro n acc
    simp only [Nat.toDigitsCore]
    split
    · simp
    · rw [ih (n / 10) (Nat.digitChar (n % 10) :: acc), ih (n / 10) [Nat.digitChar (n % 10)]]
      simp

theorem toDigitsCore_fuel (n : Nat) : ∀ (f g : Nat), n < f → n < g →
    Nat.toDigitsCore 10 f n [] = Nat.toDigitsCore 10 g n [] := by
  induction n using Nat.strong_induction_on with
  | _ n ih =>
    intro f g hf hg
    obtain ⟨f, rfl⟩ : ∃ k, f = k + 1 := ⟨f - 1, by omega⟩
    obtain ⟨g, rfl⟩ : ∃ k, g = k + 1 := ⟨g - 1, by omega⟩
    simp only [Nat.toDigitsCore]
    split
    · rfl
    · have hlt : n / 10 < n := Nat.div_lt_self (by omega) (by decide)
      rw [toDigitsCore_append f, toDigitsCore_append g,
        ih (n / 10) hlt f g (by omega) (by omega)]

theorem natToText_small {n : Nat} (h : n < 10) : natToText n = [Nat.digitChar n] := by
  have h0 : n / 10 = 0 := Nat.div_eq_of_lt h
  simp [natToText, Nat.toDigits, Nat.toDigitsCore, h0, Nat.mod_eq_of_lt h]

theorem natToText_big {n : Nat} (h : 10 ≤ n) :
    natToText n = natToText (n / 10) ++ [Nat.digitChar (n % 10)] := by
  have h0 : n / 10 ≠ 0 := by omega
  have hlt : n / 10 < n := Nat.div_lt_self (by omega) (by decide)
  unfold natToText Nat.toDigits
  rw [Nat.toDigitsCore]
  simp only [h0, if_false]
  rw [toDigitsCore_append, toDigitsCore_fuel (n / 10) n (n / 10 + 1) hlt (by omega)]

theorem natToText_digits (n : Nat) : ∀ c ∈ natToText n, isdigit c = true := by
  induction n using Nat.strong_induction_on with
  | _ n ih =>
    by_cases h : n < 10
    · rw [natToText_small h]
      intro c hc
      simp only [List.mem_singleton] at hc
      rw [hc]
      exact isdigit_digitChar h
    · rw [natToText_big (by omega)]
      intro c hc
      rcases List.mem_append.mp hc with hc | hc
      · exact ih (n / 10) (Nat.div_lt_self (by omega) (by decide)) c hc
      · simp only [List.mem_singleton] at hc
        rw [hc]
        exact isdigit_digitChar (Nat.mod_lt _ (by decide))

theorem natToText_ne_nil (n : Nat) : natToText n ≠ [] := by
  by_cases h : n < 10
  · rw [natToText_small h]; simp
  · rw [natToText_big (by omega)]; simp

theorem strtolDigits_natToText (n : Nat) : ∀ (acc : Nat) (rest : Text),
    strtolDigits (natToText n ++ rest) acc
      = strtolDigits rest (acc * 10 ^ (natToText n).length + n) := by
  induction n using Nat.strong_induction_on with
  | _ n ih =>
    intro acc rest
    by_cases h : n < 10
    · rw [natToText_small h]
      simp [strtolDigits, isdigit_digitChar h, digitChar_toNat h]
    · rw [natToText_big (by omega), List.append_assoc,
        ih (n / 10) (Nat.div_lt_self (by omega) (by decide))]
      have hm : n % 10 < 10 := Nat.mod_lt _ (by decide)
      simp only [List.singleton_append, strtolDigits, isdigit_digitChar hm, if_true,
        digitChar_toNat hm, List.length_append, List.length_singleton]
      congr 1
      have := Nat.div_add_mod n 10
      rw [pow_succ]
      nlinarith [Nat.div_add_mod n 10]

/-- Reading back a printed count: when the numeral is followed by nothing or by a character
that is not a digit, the digit loop returns the number. -/
theorem strtolDigits_numeral (n : Nat) (rest : Text)
    (h : ∀ c cs, rest = c :: cs → isdigit c = false) :
    strtolDigits (natToText n ++ rest) 0 = n := by
  rw [strtolDigits_natToText]
  cases rest with
  | nil => simp [strtolDigits]
  | cons c cs => simp [strtolDigits, h c cs rfl]

theorem isdigit_not_star {c : Char} (h : isdigit c = true) : c ≠ '*' := by
  intro hc
  rw [hc] at h
  exact absurd h (by decide)

theorem isdigit_not_dollar {c : Char} (h : isdigit c = true) : c ≠ '$' := by
  intro hc
  rw [hc] at h
  exact absurd h (by decide)

theorem isdigit_not_space {c : Char} (h : isdigit c = true) : isspace c = false := by
  unfold isdigit at h
  unfold isspace
  simp only [Bool.and_eq_true, decide_eq_true_eq] at h
  simp only [Bool.or_eq_false_iff, beq_eq_false_iff_ne, Bool.and_eq_false_imp,
    decide_eq_true_eq, decide_eq_false_iff_not]
  omega

theorem natToText_head (n : Nat) : ∃ c cs, natToText n = c :: cs ∧ isdigit c = true := by
  cases h : natToText n with
  | nil => exact absurd h (natToText_ne_nil n)
  | cons c cs =>
    refine ⟨c, cs, rfl, natToText_digits n c ?_⟩
    rw [h]
    exact List.mem_cons_self _ _

theorem strtol_natToText (n : Nat) (h : (n : Int) ≤ 9223372036854775807) :
    strtol (natToText n) = n := by
  obtain ⟨c, cs, hc, hd⟩ := natToText_head n
  have hv : strtolDigits (natToText n) 0 = n := by
    have := strtolDigits_numeral n [] (by intro c cs h; cases h)
    simpa using this
  have hsp : (natToText n).dropWhile isspace = natToText n := by
    rw [hc, List.dropWhile_cons, isdigit_not_space hd]
    rfl
  have hminus : c ≠ '-' := by
    intro e; rw [e] at hd; exact absurd hd (by decide)
  have hplus : c ≠ '+' := by
    intro e; rw [e] at hd; exact absurd hd (by decide)
  unfold strtol
  rw [hsp]
  split
  · rename_i r heq
    rw [hc] at heq
    exact absurd (List.cons.inj heq).1 hminus
  · rename_i r heq
    rw [hc] at heq
    exact absurd (List.cons.inj heq).1 hplus
  · rw [hv]
    omega

theorem strtol_minus_natToText (n : Nat) (h : (n : Int) ≤ 9223372036854775808) :
    strtol ('-' :: natToText n) = -(n : Int) := by
  have hv : strtolDigits (natToText n) 0 = n := by
    have := strtolDigits_numeral n [] (by intro c cs h; cases h)
    simpa using this
  have hsp : ('-' :: natToText n).dropWhile isspace = '-' :: natToText n := by
    rw [List.dropWhile_cons]
    rfl
  unfold strtol
  rw [hsp]
  simp only [hv]
  omega

/-- Printing an `int` and reading it back with `atoi` gives the same `int`. -/
theorem atoi_intToText (i : Int) (h : IsInt32 i) : atoi (intToText i) = i := by
  unfold IsInt32 at h
  unfold atoi intToText
  by_cases hneg : i < 0
  · rw [if_pos hneg, strtol_minus_natToText _ (by omega)]
    have : -((i.natAbs : Nat) : Int) = i := by omega
    rw [this]
    exact toInt32_of_isInt32 h
  · rw [if_neg hneg, strtol_natToText _ (by omega)]
    have : ((i.toNat : Nat) : Int) = i := by omega
    rw [this]
    exact toInt32_of_isInt32 h

theorem intToText_no_star (i : Int) : '*' ∉ intToText i := by
  unfold intToText
  intro hmem
  split at hmem
  · rcases List.mem_cons.mp hmem with h | h
    · exact absurd h (by decide)
    · exact isdigit_not_star (natToText_digits _ _ h) rfl
  · exact isdigit_not_star (natToText_digits _ _ hmem) rfl

theorem natToText_no_dollar (n : Nat) : '$' ∉ natToText n := by
  intro hmem
  exact isdigit_not_dollar (natToText_digits _ _ hmem) rfl

theorem intToText_ofNat (n : Nat) : intToText (n : Int) = natToText n := by
  unfold intToText
  rw [if_neg (by omega)]
  simp

/-! ## The parser on well-formed and on short payloads -/

theorem splitAtDelim_append (d : Char) (xs ys : Text) (h : d ∉ xs) :
    splitAtDelim d (xs ++ d :: ys) = (xs, ys) := by
  induction xs with
  | nil => simp [splitAtDelim]
  | cons x xs ih =>
    have hx : x ≠ d := fun e => h (by rw [e]; exact List.mem_cons_self _ _)
    have hxs : d ∉ xs := fun e => h (List.mem_cons_of_mem _ e)
    simp [splitAtDelim, hx, ih hxs]

theorem find_append (d : Char) (xs ys : Text) (h : d ∉ xs) :
    find d (xs ++ d :: ys) = some xs.length := by
  induction xs with
  | nil => simp [find]
  | cons x xs ih =>
    have hx : x ≠ d := fun e => h (by rw [e]; exact List.mem_cons_self _ _)
    have hxs : d ∉ xs := fun e => h (List.mem_cons_of_mem _ e)
    simp [find, hx, ih hxs]

theorem substrAfterDollar_append (xs ys : Text) (h : '$' ∉ xs) :
    substrAfterDollar (xs ++ '$' :: ys) = ys := by
  unfold substrAfterDollar
  rw [find_append _ _ _ h]
  simp

theorem starred_cons (t : Text) (ts : List Text) :
    starred (t :: ts) = t ++ '*' :: starred ts := by
  simp [starred]

/-- The token loop on a text made of `*`-terminated pieces, started at index `pre.length` of
a block `pre ++ mid ++ post` in which `mid` has one entry for each piece: the entries of
`mid` are replaced by the `atoi` values of the pieces and nothing else changes. -/
theorem readValues_starred (ts : List Text) : ∀ (fuel : Nat) (pre mid post : List Int),
    (∀ t ∈ ts, '*' ∉ t) → (starred ts).length < fuel → mid.length = ts.length →
    readValues fuel (starred ts) (pre ++ mid ++ post) pre.length
      = some (pre ++ ts.map atoi ++ post) := by
  induction ts with
  | nil =>
    intro fuel pre mid post _ hf hmid
    obtain ⟨f, rfl⟩ : ∃ k, fuel = k + 1 := ⟨fuel - 1, by omega⟩
    have : mid = [] := List.length_eq_zero.mp (by simpa using hmid)
    subst this
    simp [starred, readValues, getline]
  | cons t ts ih =>
    intro fuel pre mid post hstar hf hmid
    obtain ⟨f, rfl⟩ : ∃ k, fuel = k + 1 := ⟨fuel - 1, by omega⟩
    have ht : '*' ∉ t := hstar t (List.mem_cons_self _ _)
    have hts : ∀ u ∈ ts, '*' ∉ u := fun u hu => hstar u (List.mem_cons_of_mem _ hu)
    have hlen : (starred (t :: ts)).length = t.length + 1 + (starred ts).length := by
      rw [starred_cons]; simp; omega
    obtain ⟨c, cs, hcs⟩ : ∃ c cs, starred (t :: ts) = c :: cs := by
      rw [starred_cons]
      cases t with
      | nil => exact ⟨_, _, rfl⟩
      | cons c cs => exact ⟨_, _, rfl⟩
    have hget : getline (starred (t :: ts)) '*' = some (t, starred ts) := by
      rw [hcs]
      simp only [getline]
      rw [← hcs, starred_cons, splitAtDelim_append _ _ _ ht]
    obtain ⟨m, mid1, rfl⟩ : ∃ m mid1, mid = m :: mid1 := by
      cases mid with
      | nil => simp at hmid
      | cons m mid1 => exact ⟨m, mid1, rfl⟩
    have hxlt : pre.length < (pre ++ m :: mid1 ++ post).length := by simp
    have hset : (pre ++ m :: mid1 ++ post).set pre.length (atoi t)
        = (pre ++ [atoi t]) ++ mid1 ++ post := by
      simp [List.set_append]
    have hx1 : pre.length + 1 = (pre ++ [atoi t]).length := by simp
    simp only [readValues, hget, hxlt, if_true]
    rw [hset, hx1, ih f (pre ++ [atoi t]) mid1 post hts (by omega) (by simpa using hmid)]
    simp

/-- The parser on a text `count ++ "$" ++ pieces`, where the count text holds no `$`, no
piece holds a `*`, the count read by `atoi` is not negative and there are no more pieces
than the count: the block holds the `atoi` value of every piece, then zeros up to the count;
`m_obfsValues` keeps the text after the `$`. -/
theorem parseObfsValues_starred (count : Text) (ts : List Text)
    (hcount : '$' ∉ count) (hstar : ∀ t ∈ ts, '*' ∉ t)
    (hfit : (ts.length : Int) ≤ atoi count) :
    parseObfsValues (count ++ '$' :: starred ts)
      = some { arraySize := atoi count
               obfsVector := ts.map atoi ++ List.replicate ((atoi count).toNat - ts.length) 0
               m_obfsValues := starred ts } := by
  have hnn : ¬ atoi count < 0 := by omega
  have hsplit : List.replicate (atoi count).toNat (0 : Int)
      = [] ++ List.replicate ts.length 0
          ++ List.replicate ((atoi count).toNat - ts.length) 0 := by
    rw [List.nil_append, List.append_replicate_replicate]
    congr 1
    omega
  unfold parseObfsValues
  simp only [splitAtDelim_append _ _ _ hcount, substrAfterDollar_append _ _ hcount, hnn,
    if_false]
  rw [hsplit]
  have := readValues_starred ts ((starred ts).length + 1) [] (List.replicate ts.length 0)
    (List.replicate ((atoi count).toNat - ts.length) 0) hstar (by omega) (by simp)
  simp only [List.length_nil] at this
  rw [this]
  simp

theorem decode_starred (count : Text) (ts : List Text)
    (hcount : '$' ∉ count) (hstar : ∀ t ∈ ts, '*' ∉ t)
    (hfit : (ts.length : Int) ≤ atoi count) :
    decode (count ++ '$' :: starred ts)
      = some (ts.map atoi ++ List.replicate ((atoi count).toNat - ts.length) 0) := by
  unfold decode
  rw [parseObfsValues_starred count ts hcount hstar hfit]
  simp only [Option.map_some', oVector]
  congr 1
  apply List.take_of_length_le
  simp
  omega

/-! ## The encoder -/

theorem foldl_encode (v : List Int) : ∀ (init : Text),
    v.foldl (fun values x => values ++ intToText x ++ ['*']) init
      = init ++ starred (v.map intToText) := by
  induction v with
  | nil => intro init; simp [starred]
  | cons x xs ih =>
    intro init
    rw [List.foldl_cons, ih, List.map_cons, starred_cons]
    simp

theorem encodeValues_eq (v : List Int) :
    encodeValues v = natToText v.length ++ '$' :: starred (v.map intToText) := by
  unfold encodeValues
  rw [foldl_encode, intToText_ofNat]
  simp

theorem count_star_starred (ts : List Text) (h : ∀ t ∈ ts, '*' ∉ t) :
    (starred ts).count '*' = ts.length := by
  induction ts with
  | nil => simp [starred]
  | cons t ts ih =>
    have ht : '*' ∉ t := h t (List.mem_cons_self _ _)
    have hts : ∀ u ∈ ts, '*' ∉ u := fun u hu => h u (List.mem_cons_of_mem _ hu)
    rw [starred_cons, List.count_append, List.count_cons_self, ih hts,
      List.count_eq_zero_of_not_mem ht]
    simp

theorem count_star_natToText (n : Nat) : (natToText n).count '*' = 0 :=
  List.count_eq_zero_of_not_mem fun h => isdigit_not_star (natToText_digits _ _ h) rfl

theorem map_atoi_intToText (v : List Int) (hv : ∀ x ∈ v, IsInt32 x) :
    (v.map intToText).map atoi = v := by
  induction v with
  | nil => rfl
  | cons x xs ih =>
    simp only [List.map_cons]
    rw [atoi_intToText x (hv x (List.mem_cons_self _ _)),
      ih fun y hy => hv y (List.mem_cons_of_mem _ hy)]

theorem atoi_natToText (n : Nat) (h : n ≤ 2147483647) : atoi (natToText n) = n := by
  have := atoi_intToText (n : Int) (by unfold IsInt32; omega)
  rwa [intToText_ofNat] at this

theorem atoi_nonNumeric (t : Text) (h : NonNumeric t) : atoi t = 0 := by
  cases t with
  | nil => decide
  | cons c cs =>
    obtain ⟨hd, hs, hm, hp⟩ := h c cs rfl
    unfold atoi strtol
    rw [List.dropWhile_cons, hs]
    simp only [Bool.false_eq_true, if_false]
    split
    · rename_i r heq
      exact absurd (List.cons.inj heq).1 hm
    · rename_i r heq
      exact absurd (List.cons.inj heq).1 hp
    · simp [strtolDigits, hd]
      decide

/-! ## Combining the two mask vectors -/

theorem addInt_comm (a b : Int) : addInt a b = addInt b a := by
  unfold addInt
  rw [Int.add_comm]

/-- The combining loop after its first `k` passes: `k` sums, then the untouched zeros. -/
theorem combineMasks_upto (n : Nat) (a b : List Int) (ha : n ≤ a.length)
    (hb : n ≤ b.length) : ∀ k, k ≤ n →
    (List.range k).foldlM
      (fun combined y =>
        match a[y]?, b[y]? with
        | some u, some v => some (combined.set y (addInt u v))
        | _, _ => none)
      (List.replicate n (0 : Int))
      = some ((List.range k).map (fun y => addInt (a.getD y 0) (b.getD y 0))
          ++ List.replicate (n - k) 0) := by
  intro k
  induction k with
  | zero => intro _; simp
  | succ k ih =>
    intro hk
    have hka : k < a.length := by omega
    have hkb : k < b.length := by omega
    rw [List.range_succ, List.foldlM_append, ih (by omega)]
    simp only [Option.bind_eq_bind, Option.some_bind, List.foldlM_cons, List.foldlM_nil,
      List.getElem?_eq_getElem hka, List.getElem?_eq_getElem hkb, Option.bind_some]
    have hrep : List.replicate (n - k) (0 : Int) = 0 :: List.replicate (n - (k + 1)) 0 := by
      rw [← List.replicate_succ]
      congr 1
      omega
    rw [hrep]
    simp [List.set_append, List.getD_eq_getElem?_getD, List.getElem?_eq_getElem hka,
      List.getElem?_eq_getElem hkb]

theorem combineMasks_eq (n : Nat) (a b : List Int) (ha : n ≤ a.length) (hb : n ≤ b.length) :
    combineMasks n a b
      = some ((List.range n).map fun y => addInt (a.getD y 0) (b.getD y 0)) := by
  unfold combineMasks
  rw [combineMasks_upto n a b ha hb n (le_refl n)]
  simp

/-! ## The loops over the Members -/

theorem mem_stepLoop (fuel : Nat) : ∀ (s n i : Nat), n ≤ s + 2 * fuel →
    (i ∈ stepLoop fuel s n ↔ s ≤ i ∧ i < n ∧ i % 2 = s % 2) := by
  induction fuel with
  | zero =>
    intro s n i h
    simp only [stepLoop, List.not_mem_nil, false_iff]
    omega
  | succ f ih =>
    intro s n i h
    simp only [stepLoop]
    split
    · rw [List.mem_cons, ih (s + 2) n i (by omega)]
      omega
    · simp only [List.not_mem_nil, false_iff]
      omega

theorem mem_oddMeters (n i : Nat) : i ∈ oddMeters n ↔ 3 ≤ i ∧ i < n ∧ i % 2 = 1 := by
  unfold oddMeters
  rw [mem_stepLoop n 3 n i (by omega)]

theorem mem_evenMeters (n i : Nat) : i ∈ evenMeters n ↔ 2 ≤ i ∧ i < n ∧ i % 2 = 0 := by
  unfold evenMeters
  rw [mem_stepLoop n 2 n i (by omega)]

theorem singlePayload_eq (v : Int) : singlePayload v = encodeValues [v] := by
  unfold singlePayload encodeValues
  simp

/-! ## Distribution installers -/

theorem senderRoutes_append (xs ys : List App) :
    senderRoutes (xs ++ ys) = senderRoutes xs ++ senderRoutes ys := by
  simp [senderRoutes, List.filterMap_append]

theorem foldlM_lead1ToOddMeter (c : List Int) (idx : List Nat) : ∀ (t : MeshTest),
    t.m_UdpTcpMode ≠ "udp" → t.m_obfVector10_plus_obfVector01 = some c →
    (∀ i ∈ idx, i < c.length) →
    idx.foldlM lead1ToOddMeter t
      = some { t with
          installed := t.installed ++ (idx.map fun i => lead1OddApps t (c.getD i 0) i).flatten } := by
  induction idx with
  | nil => intro t _ _ _; simp
  | cons i rest ih =>
    intro t hmode hc hidx
    have hi : i < c.length := hidx i (List.mem_cons_self _ _)
    have hstep : lead1ToOddMeter t i
        = some { t with installed := t.installed ++ lead1OddApps t (c.getD i 0) i } := by
      simp [lead1ToOddMeter, hmode, hc, List.getElem?_eq_getElem hi, lead1OddApps,
        List.getD_eq_getElem?_getD]
    rw [List.foldlM_cons, hstep]
    simp only [Option.bind_eq_bind, Option.some_bind]
    rw [ih { t with installed := t.installed ++ lead1OddApps t (c.getD i 0) i } hmode hc
      fun j hj => hidx j (List.mem_cons_of_mem _ hj)]
    simp [lead1OddApps, nodeCount]

theorem foldlM_lead0ToEvenMeter (c : List Int) (idx : List Nat) : ∀ (t : MeshTest),
    t.m_UdpTcpMode ≠ "udp" → t.m_obfVector10_plus_obfVector01 = some c →
    (∀ i ∈ idx, i < c.length) →
    idx.foldlM lead0ToEvenMeter t
      = some { t with
          installed := t.installed ++ (idx.map fun i => lead0EvenApps t (c.getD i 0) i).flatten } := by
  induction idx with
  | nil => intro t _ _ _; simp
  | cons i rest ih =>
    intro t hmode hc hidx
    have hi : i < c.length := hidx i (List.mem_cons_self _ _)
    have hstep : lead0ToEvenMeter t i
        = some { t with installed := t.installed ++ lead0EvenApps t (c.getD i 0) i } := by
      simp [lead0ToEvenMeter, hmode, hc, List.getElem?_eq_getElem hi, lead0EvenApps,
        List.getD_eq_getElem?_getD]
    rw [List.foldlM_cons, hstep]
    simp only [Option.bind_eq_bind, Option.some_bind]
    rw [ih { t with installed := t.installed ++ lead0EvenApps t (c.getD i 0) i } hmode hc
      fun j hj => hidx j (List.mem_cons_of_mem _ hj)]
    simp [lead0EvenApps, nodeCount]

theorem senderRoutes_lead1OddApps (t : MeshTest) (c : List Int) (idx : List Nat) :
    senderRoutes (idx.map fun i => lead1OddApps t (c.getD i 0) i).flatten
      = idx.map fun (i : Nat) => ((1 : Int), (i : Int), encodeValues [c.getD i 0]) := by
  induction idx with
  | nil => rfl
  | cons i rest ih =>
    rw [List.map_cons, List.flatten_cons, senderRoutes_append, ih]
    simp [senderRoutes, lead1OddApps, defaultSender, singlePayload_eq]

theorem senderRoutes_lead0EvenApps (t : MeshTest) (c : List Int) (idx : List Nat) :
    senderRoutes (idx.map fun i => lead0EvenApps t (c.getD i 0) i).flatten
      = idx.map fun (i : Nat) => ((0 : Int), (i : Int), encodeValues [c.getD i 0]) := by
  induction idx with
  | nil => rfl
  | cons i rest ih =>
    rw [List.map_cons, List.flatten_cons, senderRoutes_append, ih]
    simp [senderRoutes, lead0EvenApps, defaultSender, singlePayload_eq]

/-! ## Collection installers -/

theorem blindMeter_eq (t : MeshTest) (c f : List Int) (i : Nat)
    (hc : t.m_obfVector10_plus_obfVector01 = some c) (hf : t.m_finalObfVector = some f)
    (hic : i < c.length) (hif : i < f.length) :
    blindMeter t i
      = some ({ t with
          rand := fun j => t.rand (j + 1)
          m_finalObfVector := some (f.set i (addInt (c.getD i 0) (secondStageDraw (t.rand 0)))) },
        addInt (c.getD i 0) (secondStageDraw (t.rand 0))) := by
  simp [blindMeter, hc, hf, List.getElem?_eq_getElem hic, hif, List.getD_eq_getElem?_getD]

/-- The loop of a collection installer in TCP mode, for either Aggregator (`step` is the
loop body, `lead` the Aggregator node): every pass consumes one value of `rand ()` and
installs one sender on the Member, whose payload is the one-entry text of the combined
entry plus the draw. -/
theorem foldlM_collect (step : MeshTest → Nat → Option MeshTest) (lead : Int)
    (hstep : ∀ (t : MeshTest) (i : Nat), t.m_UdpTcpMode ≠ "udp" →
      step t i = (blindMeter t i).bind fun r =>
        some { r.1 with
          installed := r.1.installed ++
            [App.sender { defaultSender "ns3::TcpSocketFactory" lead i with
                packetSize := r.1.meter_packetSize, firstSent := 45
                transMode := 2, meterSize := nodeCount t, obfsValues := singlePayload r.2 }] })
    (c : List Int) (idx : List Nat) : ∀ (t : MeshTest) (f : List Int),
    t.m_UdpTcpMode ≠ "udp" → t.m_obfVector10_plus_obfVector01 = some c →
    t.m_finalObfVector = some f → (∀ i ∈ idx, i < c.length ∧ i < f.length) →
    ∃ t1 f1, idx.foldlM step t = some t1 ∧ t1.m_UdpTcpMode = t.m_UdpTcpMode
      ∧ t1.m_finalObfVector = some f1 ∧ f1.length = f.length
      ∧ senderRoutes t1.installed = senderRoutes t.installed ++
          idx.mapIdx fun j (i : Nat) =>
            ((i : Int), lead, encodeValues [addInt (c.getD i 0) (secondStageDraw (t.rand j))]) := by
  induction idx with
  | nil =>
    intro t f _ _ hf _
    exact ⟨t, f, by simp, rfl, hf, rfl, by simp⟩
  | cons i rest ih =>
    intro t f hmode hc hf hidx
    obtain ⟨hic, hif⟩ := hidx i (List.mem_cons_self _ _)
    have h1 := hstep t i hmode
    rw [blindMeter_eq t c f i hc hf hic hif] at h1
    simp only [Option.some_bind] at h1
    obtain ⟨t1, f1, hfold, hm1, hf1, hlen1, hroutes⟩ :=
      ih _ (f.set i (addInt (c.getD i 0) (secondStageDraw (t.rand 0))))
        (show ({ t with
            rand := fun j => t.rand (j + 1)
            m_finalObfVector :=
              some (f.set i (addInt (c.getD i 0) (secondStageDraw (t.rand 0))))
            installed := t.installed ++
              [App.sender { defaultSender "ns3::TcpSocketFactory" lead i with
                  packetSize := t.meter_packetSize, firstSent := 45
                  transMode := 2, meterSize := nodeCount t
                  obfsValues := singlePayload
                    (addInt (c.getD i 0) (secondStageDraw (t.rand 0))) }] }
              : MeshTest).m_UdpTcpMode ≠ "udp" from hmode)
        hc rfl
        (by
          intro j hj
          have := hidx j (List.mem_cons_of_mem _ hj)
          simpa using this)
    refine ⟨t1, f1, ?_, hm1, hf1, by simpa using hlen1, ?_⟩
    · rw [List.foldlM_cons, h1]
      exact hfold
    · rw [hroutes, List.mapIdx_cons, senderRoutes_append]
      simp [senderRoutes, defaultSender, singlePayload_eq]

theorem oddMeterToLead1_tcp (t : MeshTest) (i : Nat) (hmode : t.m_UdpTcpMode ≠ "udp") :
    oddMeterToLead1 t i = (blindMeter t i).bind fun r =>
      some { r.1 with
        installed := r.1.installed ++
          [App.sender { defaultSender "ns3::TcpSocketFactory" 1 i with
              packetSize := r.1.meter_packetSize, firstSent := 45
              transMode := 2, meterSize := nodeCount t, obfsValues := singlePayload r.2 }] } := by
  unfold oddMeterToLead1
  rw [if_neg hmode]
  cases blindMeter t i with
  | none => rfl
  | some r => rfl

theorem evenMeterToLead0_tcp (t : MeshTest) (i : Nat) (hmode : t.m_UdpTcpMode ≠ "udp") :
    evenMeterToLead0 t i = (blindMeter t i).bind fun r =>
      some { r.1 with
        installed := r.1.installed ++
          [App.sender { defaultSender "ns3::TcpSocketFactory" 0 i with
              packetSize := r.1.meter_packetSize, firstSent := 45
              transMode := 2, meterSize := nodeCount t, obfsValues := singlePayload r.2 }] } := by
  unfold evenMeterToLead0
  rw [if_neg hmode]
  cases blindMeter t i with
  | none => rfl
  | some r => rfl

theorem secondStageDraw_range (r : Nat) : 50 ≤ secondStageDraw r ∧ secondStageDraw r < 100 := by
  unfold secondStageDraw
  omega

/-! ## Exchange installers and the sender -/

theorem lead0ToLead1_tcp (t : MeshTest) (seeded : Nat → Nat) (hmode : t.m_UdpTcpMode ≠ "udp")
    (hn : 0 ≤ nodeCount t) :
    ∃ t1, InstallApplicationLead0ToLead1 t seeded = some t1
      ∧ t1.m_obfVector01 = some (drawMasks seeded (nodeCount t).toNat)
      ∧ senderRoutes t1.installed = senderRoutes t.installed ++
          [((0 : Int), (1 : Int), encodeValues (drawMasks seeded (nodeCount t).toNat))] := by
  have hnn : ¬ nodeCount t < 0 := by omega
  unfold InstallApplicationLead0ToLead1
  simp only [hmode, hnn, if_false]
  exact ⟨_, rfl, rfl, by simp [senderRoutes_append, senderRoutes, defaultSender]⟩

theorem lead1ToLead0_tcp (t : MeshTest) (a : List Int) (hmode : t.m_UdpTcpMode ≠ "udp")
    (hn : 0 ≤ nodeCount t) (ha : t.m_obfVector01 = some a)
    (hlen : (nodeCount t).toNat ≤ a.length) :
    ∃ t2, InstallApplicationLead1ToLead0 t = some t2
      ∧ t2.m_obfVector10 = some (drawMasks t.rand (nodeCount t).toNat)
      ∧ t2.m_obfVector10_plus_obfVector01
          = some ((List.range (nodeCount t).toNat).map fun y =>
              addInt ((drawMasks t.rand (nodeCount t).toNat).getD y 0) (a.getD y 0))
      ∧ senderRoutes t2.installed = senderRoutes t.installed ++
          [((1 : Int), (0 : Int), encodeValues (drawMasks t.rand (nodeCount t).toNat))] := by
  have hnn : ¬ nodeCount t < 0 := by omega
  have hcomb := combineMasks_eq (nodeCount t).toNat (drawMasks t.rand (nodeCount t).toNat) a
    (by simp [drawMasks]) hlen
  unfold InstallApplicationLead1ToLead0
  simp only [hmode, hnn, if_false, ha, hcomb]
  exact ⟨_, rfl, rfl, rfl, by simp [senderRoutes_append, senderRoutes, defaultSender]⟩

theorem SendPacket_starred (app : OnOffMLM) (c : Nat) (ts : List Text)
    (hmode : app.m_trsmode ≤ 2) (hpay : app.m_obfsValues = natToText c ++ '$' :: starred ts)
    (hc : c ≤ 536870910) (hstar : ∀ t ∈ ts, '*' ∉ t) (hk : ts.length ≤ c) :
    SendPacket app
      = some { app with
          m_obfsValues := starred ts
          m_totBytes := (app.m_totBytes + app.m_pktSize) % 4294967296
          sent := app.sent ++
            [{ values := ts.map atoi ++ List.replicate (c - ts.length) 0, size := 4 + 4 * c }] } := by
  have hat : atoi (natToText c) = c := atoi_natToText c (by omega)
  have hm : app.m_trsmode = 0 ∨ app.m_trsmode = 1 ∨ app.m_trsmode = 2 := by omega
  have hparse := parseObfsValues_starred (natToText c) ts (natToText_no_dollar c) hstar
    (by rw [hat]; exact_mod_cast hk)
  have hsize : ¬ 2147483647 < 4 + 4 * c := by omega
  have htake : List.take c (List.map atoi ts ++ List.replicate (c - ts.length) 0)
      = List.map atoi ts ++ List.replicate (c - ts.length) 0 := by
    apply List.take_of_length_le
    simp
    omega
  unfold SendPacket
  rw [if_pos hm, hpay, hparse]
  simp only [hat, Int.toNat_ofNat, hsize, if_false, oVector, htake]

theorem nodeCount_scenarioMesh (rand : Nat → Nat) : nodeCount (scenarioMesh rand) = 4 := by
  rfl

theorem tcp_scenarioMesh (rand : Nat → Nat) : (scenarioMesh rand).m_UdpTcpMode ≠ "udp" := by
  show "tcp" ≠ "udp"
  decide

theorem evenMeters_four : evenMeters 4 = [2] := by decide

theorem addInt_zero_draw_ne (r : Nat) : addInt 0 (secondStageDraw r) ≠ 150 := by
  have hr := secondStageDraw_range r
  intro h
  unfold addInt toInt32 at h
  omega

/-! ## Sizes of the Member loops and ranges of the draws -/

theorem isInt32_toInt32 (x : Int) : IsInt32 (toInt32 x) := by
  unfold IsInt32 toInt32
  omega

theorem stepLoop_ge (fuel : Nat) : ∀ (s n i : Nat), i ∈ stepLoop fuel s n → s ≤ i := by
  induction fuel with
  | zero => intro s n i h; simp [stepLoop] at h
  | succ f ih =>
    intro s n i h
    simp only [stepLoop] at h
    split at h
    · rcases List.mem_cons.mp h with h | h
      · omega
      · have := ih (s + 2) n i h
        omega
    · simp at h

theorem stepLoop_nodup (fuel : Nat) : ∀ (s n : Nat), (stepLoop fuel s n).Nodup := by
  induction fuel with
  | zero => intro s n; simp [stepLoop]
  | succ f ih =>
    intro s n
    simp only [stepLoop]
    split
    · refine List.nodup_cons.mpr ⟨?_, ih (s + 2) n⟩
      intro h
      have := stepLoop_ge f (s + 2) n s h
      omega
    · simp

theorem stepLoop_length (fuel : Nat) : ∀ (s n : Nat), n ≤ s + 2 * fuel →
    (stepLoop fuel s n).length = (n + 1 - s) / 2 := by
  induction fuel with
  | zero =>
    intro s n h
    simp only [stepLoop, List.length_nil]
    omega
  | succ f ih =>
    intro s n h
    simp only [stepLoop]
    split
    · rw [List.length_cons, ih (s + 2) n (by omega)]
      omega
    · simp only [List.length_nil]
      omega

theorem maskDraw_range (r : Nat) : -20 ≤ maskDraw r ∧ maskDraw r ≤ 19 := by
  unfold maskDraw
  omega

theorem gatewayMasks_upto (rand : Nat → Nat) (m : Nat) : ∀ k, k ≤ m →
    (List.range k).foldl (fun block z => block.set z (maskDraw (rand z)))
      (List.replicate m (0 : Int))
      = (List.range k).map (fun z => maskDraw (rand z)) ++ List.replicate (m - k) 0 := by
  intro k
  induction k with
  | zero => intro _; simp
  | succ k ih =>
    intro hk
    rw [List.range_succ, List.foldl_append, ih (by omega)]
    have hrep : List.replicate (m - k) (0 : Int) = 0 :: List.replicate (m - (k + 1)) 0 := by
      rw [← List.replicate_succ]
      congr 1
      omega
    rw [hrep]
    simp [List.set_append]

theorem gatewayMasks_eq (rand : Nat → Nat) (m : Nat) :
    gatewayMasks rand m = (List.range m).map fun z => maskDraw (rand z) := by
  unfold gatewayMasks
  rw [gatewayMasks_upto rand m m (le_refl m)]
  simp

theorem stepLoop_nil (fuel s n : Nat) (h : n ≤ s) : stepLoop fuel s n = [] := by
  cases fuel with
  | zero => rfl
  | succ f =>
    simp only [stepLoop]
    rw [if_neg (by omega)]

theorem drawMasks_length (rand : Nat → Nat) (n : Nat) : (drawMasks rand n).length = n := by
  simp [drawMasks]

theorem declared_count (v : List Int) :
    (splitAtDelim '$' (encodeValues v)).1 = natToText v.length := by
  rw [encodeValues_eq, splitAtDelim_append _ _ _ (natToText_no_dollar _)]

theorem singlePayload_starred (v : Int) :
    singlePayload v = natToText 1 ++ '$' :: starred [intToText v] := by
  simp [singlePayload, starred, intToText, natToText]

/-- What `SendPacket` does with the text written by the encoder for a vector of `int`
values: the packet holds the values and is four bytes longer than they are. -/
theorem SendPacket_encodeValues (app : OnOffMLM) (v : List Int)
    (hmode : app.m_trsmode ≤ 2) (hpay : app.m_obfsValues = encodeValues v)
    (hv : ∀ x ∈ v, IsInt32 x) (hlen : v.length ≤ 536870910) :
    SendPacket app
      = some { app with
          m_obfsValues := starred (v.map intToText)
          m_totBytes := (app.m_totBytes + app.m_pktSize) % 4294967296
          sent := app.sent ++ [{ values := v, size := 4 + 4 * v.length }] } := by
  have h := SendPacket_starred app v.length (v.map intToText) hmode
    (by rw [hpay, encodeValues_eq]) hlen
    (by
      intro t ht
      obtain ⟨x, _, rfl⟩ := List.mem_map.mp ht
      exact intToText_no_star x)
    (by simp)
  rw [h, map_atoi_intToText v hv]
  simp

/-! ## The sender in the event queue -/

theorem runEvent_idle (e : Int) (p : SenderProcess) (h : e ∉ p.scheduled) :
    runEvent e p = some p := by
  unfold runEvent
  rw [if_neg h]

theorem runEvents_idle (es : List Int) (p : SenderProcess) (h : ∀ e ∈ es, e ∉ p.scheduled) :
    runEvents es p = some p := by
  induction es with
  | nil => rfl
  | cons e es ih =>
    unfold runEvents at ih ⊢
    rw [List.foldlM_cons, runEvent_idle e p (h e (List.mem_cons_self _ _))]
    exact ih fun x hx => h x (List.mem_cons_of_mem _ hx)

theorem SendPacket_sent_length (app a : OnOffMLM) (h : SendPacket app = some a) :
    a.sent.length = app.sent.length + 1 := by
  unfold SendPacket at h
  split at h
  · split at h
    · exact absurd h (by simp)
    · dsimp only at h
      split at h
      · exact absurd h (by simp)
      · rw [← Option.some.inj h]
        simp
  · exact absurd h (by simp)

theorem runEvent_queue (e : Int) (p r : SenderProcess) (h : runEvent e p = some r) :
    (r = p ∧ e ∉ p.scheduled)
      ∨ (e ∈ p.scheduled ∧ r.scheduled = p.scheduled.erase e
          ∧ r.app.sent.length = p.app.sent.length + 1) := by
  unfold runEvent at h
  by_cases he : e ∈ p.scheduled
  · right
    rw [if_pos he] at h
    have key : ∀ (f : OnOffMLM → SenderProcess) (o : Option OnOffMLM),
        (∀ a, (f a).scheduled = p.scheduled.erase e ∧ (f a).app = a) → o.map f = some r →
        (∀ a, o = some a → a.sent.length = p.app.sent.length + 1) →
        r.scheduled = p.scheduled.erase e ∧ r.app.sent.length = p.app.sent.length + 1 := by
      intro f o hf ho hlen
      cases o with
      | none => exact absurd ho (by simp)
      | some a =>
        rw [Option.map_some'] at ho
        rw [← Option.some.inj ho, (hf a).1, (hf a).2]
        exact ⟨rfl, hlen a rfl⟩
    refine ⟨he, ?_⟩
    cases hs : p.m_sendEvent with
    | none =>
      rw [hs] at h
      dsimp only at h
      exact key _ _ (fun a => ⟨rfl, rfl⟩) h fun a ha => SendPacket_sent_length _ _ ha
    | some held =>
      rw [hs] at h
      dsimp only at h
      split at h
      · exact absurd h (by simp)
      · exact key _ _ (fun a => ⟨rfl, rfl⟩) h fun a ha => SendPacket_sent_length _ _ ha
  · left
    rw [if_neg he] at h
    exact ⟨(Option.some.inj h).symm, he⟩

/-- Packets sent plus events queued never grow except by one at a `StartApplication`. -/
theorem call_balance (p q : SenderProcess) (c : SenderCall) (h : call p c = some q) :
    q.app.sent.length + q.scheduled.length
      ≤ p.app.sent.length + p.scheduled.length + startCount [c] := by
  cases c with
  | start now =>
    rw [← Option.some.inj h]
    simp [StartApplication, ScheduleNextTx, startCount]
    omega
  | stop =>
    rw [← Option.some.inj h]
    unfold StopApplication CancelEvents
    cases p.m_sendEvent with
    | none => simp
    | some e =>
      have := List.length_erase_le e p.scheduled
      simp only [startCount, List.filter_cons, List.filter_nil, List.length_nil]
      show p.app.sent.length + (p.scheduled.erase e).length ≤ _
      omega
  | reach e =>
    rcases runEvent_queue e p q h with ⟨rfl, _⟩ | ⟨he, hq, hs⟩
    · omega
    · have := List.length_erase_of_mem he
      have hpos : 0 < p.scheduled.length := List.length_pos_of_mem he
      rw [hq, hs, this]
      omega

theorem startCount_cons (c : SenderCall) (cs : List SenderCall) :
    startCount (c :: cs) = startCount [c] + startCount cs := by
  cases c with
  | start now => simp [startCount, List.filter_cons, Nat.add_comm]
  | stop => simp [startCount, List.filter_cons]
  | reach e => simp [startCount, List.filter_cons]

theorem simulate_balance (calls : List SenderCall) : ∀ (p q : SenderProcess),
    simulate calls p = some q →
    q.app.sent.length + q.scheduled.length
      ≤ p.app.sent.length + p.scheduled.length + startCount calls := by
  induction calls with
  | nil =>
    intro p q h
    rw [← Option.some.inj h]
    simp [startCount]
  | cons c cs ih =>
    intro p q h
    unfold simulate at h ih
    rw [List.foldlM_cons] at h
    cases hc : call p c with
    | none =>
      rw [hc] at h
      exact absurd h (by simp)
    | some p1 =>
      rw [hc] at h
      have h1 := call_balance p p1 c hc
      have h2 := ih p1 q h
      rw [startCount_cons]
      omega

/-! ## The single-gateway distribution installer -/

theorem gatewayRoutes_append (xs ys : List GatewayApp) :
    gatewayRoutes (xs ++ ys) = gatewayRoutes xs ++ gatewayRoutes ys := by
  simp [gatewayRoutes, List.filterMap_append]

/-- The loop of `InstallApplicationGatewayToSMs` in TCP mode over the Members `idx`: every
pass installs one sender on node 0 addressed to the Member `i`, whose payload is the
one-entry text of the entry `i - 1` of the mask vector. -/
theorem foldlM_gatewayToSM (c : List Int) (idx : List Nat) : ∀ (t : GatewayMeshTest),
    t.m_UdpTcpMode ≠ "udp" → t.m_obfVector10_plus_obfVector01 = some c →
    (∀ i ∈ idx, i - 1 < c.length) →
    ∃ t1, idx.foldlM gatewayToSM t = some t1
      ∧ gatewayRoutes t1.installed = gatewayRoutes t.installed ++
          idx.map fun (i : Nat) =>
            ((0 : Int), (i : Int), some (singlePayload (c.getD (i - 1) 0))) := by
  induction idx with
  | nil => intro t _ _ _; exact ⟨t, rfl, by simp⟩
  | cons i rest ih =>
    intro t hmode hc hidx
    have hi : i - 1 < c.length := hidx i (List.mem_cons_self _ _)
    have hstep : gatewayToSM t i
        = some { t with
            installed := t.installed ++
              [GatewayApp.sender
                 { socketFactory := "ns3::TcpSocketFactory", remote := i, node := 0,
                   firstSent := none, transMode := 0, meterSize := t.m_size,
                   obfsValues := some (singlePayload (c.getD (i - 1) 0)) },
               GatewayApp.sink
                 { socketFactory := "ns3::TcpSocketFactory", address := i, node := i }] } := by
      simp [gatewayToSM, hmode, hc, List.getElem?_eq_getElem hi, List.getD_eq_getElem?_getD]
    obtain ⟨t1, hfold, hroutes⟩ := ih _
      (show ({ t with
          installed := t.installed ++
            [GatewayApp.sender
               { socketFactory := "ns3::TcpSocketFactory", remote := i, node := 0,
                 firstSent := none, transMode := 0, meterSize := t.m_size,
                 obfsValues := some (singlePayload (c.getD (i - 1) 0)) },
             GatewayApp.sink
               { socketFactory := "ns3::TcpSocketFactory", address := i, node := i }] }
          : GatewayMeshTest).m_UdpTcpMode ≠ "udp" from hmode)
      hc fun j hj => hidx j (List.mem_cons_of_mem _ hj)
    refine ⟨t1, ?_, ?_⟩
    · rw [List.foldlM_cons, hstep]
      exact hfold
    · rw [hroutes, gatewayRoutes_append]
      simp [gatewayRoutes]

/-! ## Counts, pieces and what `SendPacket` keeps -/

theorem strtolDigits_append_star (r : Text) : ∀ (a : Text) (acc : Nat),
    strtolDigits (a ++ '*' :: r) acc = strtolDigits a acc := by
  intro a
  induction a with
  | nil =>
    intro acc
    have h : isdigit '*' = false := by decide
    simp [strtolDigits, h]
  | cons c cs ih =>
    intro acc
    rw [List.cons_append]
    by_cases hc : isdigit c = true
    · simp only [strtolDigits, hc, if_true]
      exact ih _
    · simp [strtolDigits, hc]

theorem dropWhile_isspace_append_star (r : Text) : ∀ (a : Text),
    List.dropWhile isspace (a ++ '*' :: r) = List.dropWhile isspace a ++ '*' :: r := by
  intro a
  induction a with
  | nil =>
    have h : isspace '*' = false := by decide
    simp [List.dropWhile_cons, h]
  | cons c cs ih =>
    rw [List.cons_append, List.dropWhile_cons, List.dropWhile_cons]
    by_cases hc : isspace c = true
    · simp only [hc, if_true, ih]
    · simp only [hc, if_false, List.cons_append]
      simp

/-- A `*` ends the number that `strtol` reads, as the end of the text does. -/
theorem strtol_append_star (a r : Text) : strtol (a ++ '*' :: r) = strtol a := by
  unfold strtol
  rw [dropWhile_isspace_append_star]
  cases List.dropWhile isspace a with
  | nil =>
    have h : isdigit '*' = false := by decide
    simp [strtolDigits, h]
  | cons c cs =>
    by_cases hm : c = '-'
    · subst hm
      simp only [List.cons_append, strtolDigits_append_star]
    · by_cases hp : c = '+'
      · subst hp
        simp only [List.cons_append, strtolDigits_append_star]
      · have e := strtolDigits_append_star r (c :: cs) 0
        rw [List.cons_append] at e ⊢
        split
        · rename_i x heq
          exact absurd (List.cons.inj heq).1 hm
        · rename_i x heq
          exact absurd (List.cons.inj heq).1 hp
        · split
          · rename_i x heq
            exact absurd (List.cons.inj heq).1 hm
          · rename_i x heq
            exact absurd (List.cons.inj heq).1 hp
          · rw [e]

theorem atoi_append_star (a r : Text) : atoi (a ++ '*' :: r) = atoi a := by
  unfold atoi
  rw [strtol_append_star]

theorem splitAtDelim_fst_append (d : Char) (xs ys : Text) (h : d ∉ xs) :
    (splitAtDelim d (xs ++ ys)).1 = xs ++ (splitAtDelim d ys).1 := by
  induction xs with
  | nil => rfl
  | cons x xs ih =>
    have hx : x ≠ d := fun e => h (by rw [e]; exact List.mem_cons_self _ _)
    have hxs : d ∉ xs := fun e => h (List.mem_cons_of_mem _ e)
    simp [splitAtDelim, hx, ih hxs]

/-- The count that a second run of the parsing block reads from a stored text whose first
piece is `tok`: the `atoi` value of `tok`. -/
theorem second_count (tok more : Text) (h : '$' ∉ tok) :
    atoi (splitAtDelim '$' (tok ++ '*' :: more)).1 = atoi tok := by
  rw [splitAtDelim_fst_append _ _ _ h]
  have e : (splitAtDelim '$' ('*' :: more)).1 = '*' :: (splitAtDelim '$' more).1 := by
    simp [splitAtDelim]
  rw [e, atoi_append_star]

/-- The method `SendPacket` on a text `count ++ "$" ++ pieces` whose count text reads as `n`
and which has at most `n` pieces, `4 * n + 4` being an `int` value. -/
theorem SendPacket_counted (app : OnOffMLM) (count : Text) (n : Nat) (ts : List Text)
    (hmode : app.m_trsmode ≤ 2) (hpay : app.m_obfsValues = count ++ '$' :: starred ts)
    (hcount : '$' ∉ count) (hn : atoi count = (n : Int)) (hfit : n ≤ 536870910)
    (hstar : ∀ t ∈ ts, '*' ∉ t) (hk : ts.length ≤ n) :
    SendPacket app
      = some { app with
          m_obfsValues := starred ts
          m_totBytes := (app.m_totBytes + app.m_pktSize) % 4294967296
          sent := app.sent ++
            [{ values := ts.map atoi ++ List.replicate (n - ts.length) 0, size := 4 + 4 * n }] } := by
  have hm : app.m_trsmode = 0 ∨ app.m_trsmode = 1 ∨ app.m_trsmode = 2 := by omega
  have hparse := parseObfsValues_starred count ts hcount hstar
    (by rw [hn]; exact_mod_cast hk)
  have hsize : ¬ 2147483647 < 4 + 4 * n := by omega
  have htake : List.take n (List.map atoi ts ++ List.replicate (n - ts.length) 0)
      = List.map atoi ts ++ List.replicate (n - ts.length) 0 := by
    apply List.take_of_length_le
    simp
    omega
  unfold SendPacket
  rw [if_pos hm, hpay, hparse]
  simp only [hn, Int.toNat_ofNat, hsize, if_false, oVector, htake]

/-! ## The installers one after the other -/

theorem lead0ToLead1_frame (t : MeshTest) (seeded : Nat → Nat)
    (hmode : t.m_UdpTcpMode ≠ "udp") (hn : 0 ≤ nodeCount t) :
    ∃ t1, InstallApplicationLead0ToLead1 t seeded = some t1
      ∧ t1.m_UdpTcpMode = t.m_UdpTcpMode ∧ nodeCount t1 = nodeCount t
      ∧ t1.m_obfVector01 = some (drawMasks seeded (nodeCount t).toNat) := by
  have hnn : ¬ nodeCount t < 0 := by omega
  unfold InstallApplicationLead0ToLead1
  simp only [hmode, hnn, if_false]
  exact ⟨_, rfl, rfl, rfl, rfl⟩

theorem lead1ToLead0_frame (t : MeshTest) (a : List Int) (hmode : t.m_UdpTcpMode ≠ "udp")
    (hn : 0 ≤ nodeCount t) (ha : t.m_obfVector01 = some a)
    (hlen : (nodeCount t).toNat ≤ a.length) :
    ∃ t2, InstallApplicationLead1ToLead0 t = some t2
      ∧ t2.m_UdpTcpMode = t.m_UdpTcpMode ∧ nodeCount t2 = nodeCount t
      ∧ t2.m_obfVector10_plus_obfVector01
          = some ((List.range (nodeCount t).toNat).map fun y =>
              addInt ((drawMasks t.rand (nodeCount t).toNat).getD y 0) (a.getD y 0))
      ∧ t2.m_finalObfVector = some (List.replicate (nodeCount t).toNat 0) := by
  have hnn : ¬ nodeCount t < 0 := by omega
  have hcomb := combineMasks_eq (nodeCount t).toNat (drawMasks t.rand (nodeCount t).toNat) a
    (by simp [drawMasks]) hlen
  unfold InstallApplicationLead1ToLead0
  simp only [hmode, hnn, if_false, ha, hcomb]
  exact ⟨_, rfl, rfl, rfl, rfl, rfl⟩

theorem drawMasks_getD (rand : Nat → Nat) (n y : Nat) (h : y < n) :
    (drawMasks rand n).getD y 0 = maskDraw (rand y) := by
  unfold drawMasks
  rw [List.getD_eq_getElem?_getD, List.getElem?_map, List.getElem?_range h]
  rfl

theorem addInt_masks_range (a b : Nat) :
    -40 ≤ addInt (maskDraw a) (maskDraw b) ∧ addInt (maskDraw a) (maskDraw b) ≤ 38 := by
  have ha := maskDraw_range a
  have hb := maskDraw_range b
  generalize maskDraw a = x at ha ⊢
  generalize maskDraw b = y at hb ⊢
  unfold addInt toInt32
  omega

theorem reported_range (c d : Int) (hc : -40 ≤ c ∧ c ≤ 38) (hd : 50 ≤ d ∧ d < 100) :
    addInt c d - c = d ∧ 10 ≤ addInt c d ∧ addInt c d ≤ 137 ∧ 0 < addInt c d := by
  unfold addInt toInt32
  omega

/-- The two collection installers in TCP mode, each started from a state in which the
combined mask `c` and `m_finalObfVector` are allocated for all nodes. -/
theorem collection_routes (t : MeshTest) (c f : List Int)
    (hmode : t.m_UdpTcpMode ≠ "udp") (hc : t.m_obfVector10_plus_obfVector01 = some c)
    (hf : t.m_finalObfVector = some f) (hn : 0 ≤ nodeCount t)
    (hclen : (nodeCount t).toNat ≤ c.length) (hflen : (nodeCount t).toNat ≤ f.length) :
    (∃ t1, InstallApplicationOddMetersToLead1 t = some t1
        ∧ senderRoutes t1.installed = senderRoutes t.installed ++
            (oddMeters (nodeCount t).toNat).mapIdx fun j (i : Nat) =>
              ((i : Int), (1 : Int),
                encodeValues [addInt (c.getD i 0) (secondStageDraw (t.rand j))]))
      ∧ (∃ t1, InstallApplicationEvenMetersToLead0 t = some t1
        ∧ senderRoutes t1.installed = senderRoutes t.installed ++
            (evenMeters (nodeCount t).toNat).mapIdx fun j (i : Nat) =>
              ((i : Int), (0 : Int),
                encodeValues [addInt (c.getD i 0) (secondStageDraw (t.rand j))])) := by
  have hnn : ¬ nodeCount t < 0 := by omega
  refine ⟨?_, ?_⟩
  · obtain ⟨t1, f1, hfold, hm1, _, _, hroutes⟩ :=
      foldlM_collect oddMeterToLead1 1 oddMeterToLead1_tcp c (oddMeters (nodeCount t).toNat)
        t f hmode hc hf (by
          intro i hi
          have := (mem_oddMeters _ _).mp hi
          omega)
    have hm : t1.m_UdpTcpMode ≠ "udp" := by rw [hm1]; exact hmode
    unfold InstallApplicationOddMetersToLead1
    rw [if_neg hnn, hfold]
    simp only [Option.map_some', hm, if_false]
    refine ⟨_, rfl, ?_⟩
    rw [senderRoutes_append, hroutes]
    simp [senderRoutes]
  · obtain ⟨t1, f1, hfold, hm1, _, _, hroutes⟩ :=
      foldlM_collect evenMeterToLead0 0 evenMeterToLead0_tcp c
        (evenMeters (nodeCount t).toNat) t f hmode hc hf (by
          intro i hi
          have := (mem_evenMeters _ _).mp hi
          omega)
    have hm : t1.m_UdpTcpMode ≠ "udp" := by rw [hm1]; exact hmode
    unfold InstallApplicationEvenMetersToLead0
    rw [if_neg hnn, hfold]
    simp only [Option.map_some', hm, if_false]
    refine ⟨_, rfl, ?_⟩
    rw [senderRoutes_append, hroutes]
    simp [senderRoutes]

theorem oddMeters_head (n : Nat) (h : 4 ≤ n) : ∃ others, oddMeters n = 3 :: others := by
  obtain ⟨k, rfl⟩ : ∃ k, n = k + 1 := ⟨n - 1, by omega⟩
  unfold oddMeters
  simp only [stepLoop]
  rw [if_pos (by omega)]
  exact ⟨_, rfl⟩

theorem blindMeter_unset (t : MeshTest) (i : Nat)
    (h : t.m_obfVector10_plus_obfVector01 = none ∨ t.m_finalObfVector = none) :
    blindMeter t i = none := by
  unfold blindMeter
  rcases h with h | h
  · rw [h]
  · rw [h]
    cases t.m_obfVector10_plus_obfVector01 <;> rfl

theorem foldlM_none_head {α β : Type} (f : β → α → Option β) (b : β) (x : α) (xs : List α)
    (h : f b x = none) : (x :: xs).foldlM f b = none := by
  rw [List.foldlM_cons, h]
  rfl

/-! ## Properties of the protocol core -/

/-- C1, round trip.  For every sequence `v` of 32-bit signed integers whose length is an
`int` value (the empty sequence included), the parser of `OnOffMLM::SendPacket` applied to
the text written by the script's encoder returns exactly `v`. -/
theorem decode_encodeValues (v : List Int) (hv : ∀ x ∈ v, IsInt32 x)
    (hlen : v.length ≤ 2147483647) : decode (encodeValues v) = some v := by
  have hat : atoi (natToText v.length) = v.length := atoi_natToText _ hlen
  rw [encodeValues_eq, decode_starred (natToText v.length) (v.map intToText)
    (natToText_no_dollar _)
    (by
      intro t ht
      obtain ⟨x, _, rfl⟩ := List.mem_map.mp ht
      exact intToText_no_star x)
    (by rw [hat]; simp)]
  rw [map_atoi_intToText v hv, hat]
  simp

/-- C1 at a concrete vector holding both ends of the `int` range, and at the empty one. -/
theorem decode_encodeValues_witness :
    decode (encodeValues [100, -20, 0, 2147483647, -2147483648])
        = some [100, -20, 0, 2147483647, -2147483648]
      ∧ decode (encodeValues []) = some [] :=
  ⟨decode_encodeValues [100, -20, 0, 2147483647, -2147483648] (by decide) (by decide),
   decode_encodeValues [] (by decide) (by decide)⟩

/-- C2, encode format.  The text the encoder builds for a vector of `n` values is the decimal
numeral of `n`, then `$`, then for each value in index order its signed decimal numeral
followed by `*`; it holds exactly `n` characters `*`, one closing each value; and the vector
`[100, 200, 150, 95]` is written as `4$100*200*150*95*`. -/
theorem encodeValues_format :
    (∀ v : List Int,
        encodeValues v
            = natToText v.length ++ ['$'] ++ (v.map fun x => intToText x ++ ['*']).flatten
          ∧ (encodeValues v).count '*' = v.length)
      ∧ encodeValues [100, 200, 150, 95] = "4$100*200*150*95*".toList := by
  refine ⟨fun v => ⟨?_, ?_⟩, by decide⟩
  · rw [encodeValues_eq]
    simp [starred, Function.comp_def]
  · rw [encodeValues_eq, List.count_append, List.count_cons, count_star_natToText,
      count_star_starred]
    · simp
    · intro t ht
      obtain ⟨x, _, rfl⟩ := List.mem_map.mp ht
      exact intToText_no_star x

/-- C3, combined mask.  For mask vectors `maskAB` (drawn by Lead0, stored as `m_obfVector01`)
and `maskBA` (drawn by Lead1, stored as `m_obfVector10`) of the same length `n` whose
entrywise sums are `int` values, the loop of `InstallApplicationLead1ToLead0` produces a
vector of length `n` whose entry `i` is `maskAB[i] + maskBA[i]`; for `[5,-3,10,0]` and
`[-5,3,-10,20]` it is `[0,0,0,20]`. -/
theorem combineMasks_sum :
    (∀ (maskAB maskBA : List Int) (n : Nat), maskAB.length = n → maskBA.length = n →
        (∀ i, i < n → IsInt32 (maskAB.getD i 0 + maskBA.getD i 0)) →
        ∃ combinedMask, combineMasks n maskBA maskAB = some combinedMask
          ∧ combinedMask.length = n
          ∧ ∀ i, i < n → combinedMask.getD i 0 = maskAB.getD i 0 + maskBA.getD i 0)
      ∧ combineMasks 4 [-5, 3, -10, 20] [5, -3, 10, 0] = some [0, 0, 0, 20] := by
  refine ⟨?_, by decide⟩
  intro maskAB maskBA n hAB hBA hsum
  refine ⟨_, combineMasks_eq n maskBA maskAB (by omega) (by omega), by simp, ?_⟩
  intro i hi
  rw [List.getD_eq_getElem?_getD, List.getElem?_map, List.getElem?_range hi]
  simp only [Option.map_some', Option.getD_some]
  rw [addInt_comm]
  exact toInt32_of_isInt32 (hsum i hi)

/-- C3 at the vectors of Scenario A. -/
theorem combineMasks_sum_witness :
    ∃ combinedMask, combineMasks 4 [-5, 3, -10, 20] [5, -3, 10, 0] = some combinedMask
      ∧ combinedMask.length = 4
      ∧ ∀ i, i < 4 →
          combinedMask.getD i 0 = [5, -3, 10, 0].getD i 0 + [-5, 3, -10, 20].getD i 0 :=
  combineMasks_sum.1 [5, -3, 10, 0] [-5, 3, -10, 20] 4 rfl rfl (by decide)

/-- C4, mask-sum agreement.  For mask vectors `a` and `b` of the same length `n`, the
combining loop run with the operands in the order `a[i] + b[i]` and run in the order
`b[i] + a[i]` both return, and return the same vector of `n` entries. -/
theorem combineMasks_agree (a b : List Int) (n : Nat) (ha : a.length = n)
    (hb : b.length = n) :
    ∃ c, combineMasks n a b = some c ∧ combineMasks n b a = some c ∧ c.length = n
      ∧ ∀ i, i < n → c.getD i 0 = addInt (a.getD i 0) (b.getD i 0)
          ∧ c.getD i 0 = addInt (b.getD i 0) (a.getD i 0) := by
  refine ⟨_, combineMasks_eq n a b (by omega) (by omega), ?_, by simp, ?_⟩
  · rw [combineMasks_eq n b a (by omega) (by omega)]
    congr 1
    apply List.map_congr_left
    intro y _
    exact addInt_comm _ _
  · intro i hi
    rw [List.getD_eq_getElem?_getD, List.getElem?_map, List.getElem?_range hi]
    simp only [Option.map_some', Option.getD_some]
    exact ⟨trivial, addInt_comm _ _⟩

/-- C4 at the vectors of Scenario A. -/
theorem combineMasks_agree_witness :
    ∃ c, combineMasks 4 [5, -3, 10, 0] [-5, 3, -10, 20] = some c
      ∧ combineMasks 4 [-5, 3, -10, 20] [5, -3, 10, 0] = some c ∧ c.length = 4
      ∧ ∀ i, i < 4 → c.getD i 0 = addInt ([5, -3, 10, 0].getD i 0) ([-5, 3, -10, 20].getD i 0)
          ∧ c.getD i 0 = addInt ([-5, 3, -10, 20].getD i 0) ([5, -3, 10, 0].getD i 0) :=
  combineMasks_agree [5, -3, 10, 0] [-5, 3, -10, 20] 4 rfl rfl

/-- C5, privacy under-determination.  Fix the observed value `b` and the own mask half `a`.
For two distinct peer halves `m1` and `m2` of the peer-exchange range: the candidate
readings `b - a - m1` and `b - a - m2` differ; more generally any two values `x1`, `x2`
that the code's sums `(a + m1) + x1` and `(a + m2) + x2` both turn into `b` differ; and the
candidate `b - a - m1` is such a value whenever it and `b` are `int` values.  So `b` and `a`
alone leave one candidate for every peer half. -/
theorem peer_half_injective (b a m1 m2 : Int) (h1 : InPeerRange m1) (h2 : InPeerRange m2)
    (hne : m1 ≠ m2) :
    b - a - m1 ≠ b - a - m2
      ∧ (∀ x1 x2, addInt (addInt a m1) x1 = b → addInt (addInt a m2) x2 = b → x1 ≠ x2)
      ∧ (IsInt32 b → IsInt32 (b - a - m1) → addInt (addInt a m1) (b - a - m1) = b) := by
  unfold InPeerRange at h1 h2
  refine ⟨by omega, ?_, ?_⟩
  · intro x1 x2 e1 e2 hx
    subst hx
    rw [← e2] at e1
    unfold addInt toInt32 at e1
    omega
  · intro hb _
    unfold IsInt32 at hb
    unfold addInt toInt32
    omega

/-- C5 with observed value 95, own half 0 and the peer halves 20 and 19. -/
theorem peer_half_injective_witness :
    (95 : Int) - 0 - 20 ≠ 95 - 0 - 19
      ∧ (∀ x1 x2, addInt (addInt 0 20) x1 = 95 → addInt (addInt 0 19) x2 = 95 → x1 ≠ x2)
      ∧ (IsInt32 95 → IsInt32 (95 - 0 - 20) → addInt (addInt 0 20) (95 - 0 - 20) = 95) :=
  peer_half_injective 95 0 20 19 (by decide) (by decide) (by decide)

/-- C6 as stated fails.  With the combined mask `[0, 0, 0, 20]` of Scenario A, whatever
`rand ()` returns, the value that `InstallApplicationEvenMetersToLead0` stores for Member 2
is never the 150 of the scenario: the installer adds no reading and always adds one draw
of `rand () % 50 + 50` to the offset 0. -/
theorem blinding_scenario_unreachable :
    ¬ ∃ rand : Nat → Nat,
        ((InstallApplicationEvenMetersToLead0 (scenarioMesh rand)).bind
            fun t => t.m_finalObfVector).map (fun final => final.getD 2 0) = some 150 := by
  rintro ⟨rand, h⟩
  have hN : nodeCount (scenarioMesh rand) = 4 := rfl
  have hnn : ¬ nodeCount (scenarioMesh rand) < 0 := by rw [hN]; decide
  have hmode : (scenarioMesh rand).m_UdpTcpMode ≠ "udp" := tcp_scenarioMesh rand
  have hb := blindMeter_eq (scenarioMesh rand) [0, 0, 0, 20] [0, 0, 0, 0] 2 rfl rfl
    (by decide) (by decide)
  obtain ⟨v, hv⟩ : ∃ v, v = addInt (([0, 0, 0, 20] : List Int).getD 2 0)
      (secondStageDraw ((scenarioMesh rand).rand 0)) := ⟨_, rfl⟩
  rw [← hv] at hb
  have hstep := evenMeterToLead0_tcp (scenarioMesh rand) 2 hmode
  rw [hb] at hstep
  unfold InstallApplicationEvenMetersToLead0 at h
  rw [if_neg hnn, hN] at h
  have h4 : (4 : Int).toNat = 4 := rfl
  rw [h4, evenMeters_four] at h
  simp only [List.foldlM_cons, List.foldlM_nil, hstep, Option.some_bind, Option.bind_eq_bind,
    Option.map_some', Option.pure_def] at h
  simp [hmode] at h
  rw [h] at hv
  exact addInt_zero_draw_ne _ hv.symm

/-- C6 as amended.  In TCP mode, with the combined mask `c` and `m_finalObfVector`
allocated for all nodes, each collection installer returns and installs exactly one sender
per Member it handles (the odd Members from 3 report to node 1, the even Members from 2 to
node 0), in loop order; the sender of the Member `i` handled in pass `j` carries the one-entry
text of `c[i]` plus the single draw `rand () % 50 + 50` of that pass.  The draw lies in
`[50, 100)`, and the `int` sum is the exact sum whenever that is an `int` value.  No reading
enters the reported value, and the draw is never left out. -/
theorem blinding_adds_one_draw (t : MeshTest) (c f : List Int)
    (hmode : t.m_UdpTcpMode ≠ "udp") (hc : t.m_obfVector10_plus_obfVector01 = some c)
    (hf : t.m_finalObfVector = some f) (hn : 0 ≤ nodeCount t)
    (hclen : (nodeCount t).toNat ≤ c.length) (hflen : (nodeCount t).toNat ≤ f.length) :
    (∃ t1, InstallApplicationOddMetersToLead1 t = some t1
        ∧ senderRoutes t1.installed = senderRoutes t.installed ++
            (oddMeters (nodeCount t).toNat).mapIdx fun j (i : Nat) =>
              ((i : Int), (1 : Int),
                encodeValues [addInt (c.getD i 0) (secondStageDraw (t.rand j))]))
      ∧ (∃ t1, InstallApplicationEvenMetersToLead0 t = some t1
        ∧ senderRoutes t1.installed = senderRoutes t.installed ++
            (evenMeters (nodeCount t).toNat).mapIdx fun j (i : Nat) =>
              ((i : Int), (0 : Int),
                encodeValues [addInt (c.getD i 0) (secondStageDraw (t.rand j))]))
      ∧ (∀ r, 50 ≤ secondStageDraw r ∧ secondStageDraw r < 100)
      ∧ (∀ x r, IsInt32 (x + secondStageDraw r) →
          addInt x (secondStageDraw r) = x + secondStageDraw r) := by
  have hnn : ¬ nodeCount t < 0 := by omega
  refine ⟨?_, ?_, secondStageDraw_range, fun x r h => toInt32_of_isInt32 h⟩
  · obtain ⟨t1, f1, hfold, hm1, _, _, hroutes⟩ :=
      foldlM_collect oddMeterToLead1 1 oddMeterToLead1_tcp c (oddMeters (nodeCount t).toNat)
        t f hmode hc hf (by
          intro i hi
          have := (mem_oddMeters _ _).mp hi
          omega)
    have hm : t1.m_UdpTcpMode ≠ "udp" := by rw [hm1]; exact hmode
    unfold InstallApplicationOddMetersToLead1
    rw [if_neg hnn, hfold]
    simp only [Option.map_some', hm, if_false]
    refine ⟨_, rfl, ?_⟩
    rw [senderRoutes_append, hroutes]
    simp [senderRoutes]
  · obtain ⟨t1, f1, hfold, hm1, _, _, hroutes⟩ :=
      foldlM_collect evenMeterToLead0 0 evenMeterToLead0_tcp c
        (evenMeters (nodeCount t).toNat) t f hmode hc hf (by
          intro i hi
          have := (mem_evenMeters _ _).mp hi
          omega)
    have hm : t1.m_UdpTcpMode ≠ "udp" := by rw [hm1]; exact hmode
    unfold InstallApplicationEvenMetersToLead0
    rw [if_neg hnn, hfold]
    simp only [Option.map_some', hm, if_false]
    refine ⟨_, rfl, ?_⟩
    rw [senderRoutes_append, hroutes]
    simp [senderRoutes]

/-- C6 as amended, at the state of Scenario A with `rand ()` returning 25 every time. -/
theorem blinding_adds_one_draw_witness :
    (∃ t1, InstallApplicationOddMetersToLead1 (scenarioMesh fun _ => 25) = some t1
        ∧ senderRoutes t1.installed = senderRoutes (scenarioMesh fun _ => 25).installed ++
            (oddMeters (nodeCount (scenarioMesh fun _ => 25)).toNat).mapIdx fun j (i : Nat) =>
              ((i : Int), (1 : Int),
                encodeValues [addInt (([0, 0, 0, 20] : List Int).getD i 0)
                  (secondStageDraw ((scenarioMesh fun _ => 25).rand j))]))
      ∧ (∃ t1, InstallApplicationEvenMetersToLead0 (scenarioMesh fun _ => 25) = some t1
        ∧ senderRoutes t1.installed = senderRoutes (scenarioMesh fun _ => 25).installed ++
            (evenMeters (nodeCount (scenarioMesh fun _ => 25)).toNat).mapIdx fun j (i : Nat) =>
              ((i : Int), (0 : Int),
                encodeValues [addInt (([0, 0, 0, 20] : List Int).getD i 0)
                  (secondStageDraw ((scenarioMesh fun _ => 25).rand j))]))
      ∧ (∀ r, 50 ≤ secondStageDraw r ∧ secondStageDraw r < 100)
      ∧ (∀ x r, IsInt32 (x + secondStageDraw r) →
          addInt x (secondStageDraw r) = x + secondStageDraw r) :=
  blinding_adds_one_draw (scenarioMesh fun _ => 25) [0, 0, 0, 20] [0, 0, 0, 0]
    (by decide) rfl rfl (by decide) (by decide) (by decide)

/-- C7 as stated fails.  The payload `3$10*20*` (declared count 3, two pieces) is not
rejected: the parser returns the vector `[10, 20, 0]`. -/
theorem decode_count_mismatch : decode "3$10*20*".toList = some [10, 20, 0] := by
  decide

/-- C7 as amended.  A payload whose number of `*`-terminated pieces is smaller than the count
declared before `$` is not rejected: the parser returns a vector of as many entries as
declared, the `atoi` value of each piece followed by zeros. -/
theorem decode_short_payload (count : Nat) (pieces : List Text)
    (hcount : count ≤ 2147483647) (hstar : ∀ t ∈ pieces, '*' ∉ t)
    (hshort : pieces.length < count) :
    decode (natToText count ++ '$' :: starred pieces)
      = some (pieces.map atoi ++ List.replicate (count - pieces.length) 0) := by
  have hat : atoi (natToText count) = count := atoi_natToText count hcount
  rw [decode_starred (natToText count) pieces (natToText_no_dollar count) hstar
    (by rw [hat]; exact_mod_cast Nat.le_of_lt hshort), hat]
  simp

/-- C7 as amended, at the payload of Scenario B. -/
theorem decode_short_payload_witness :
    decode (natToText 3 ++ '$' :: starred ["10".toList, "20".toList])
      = some (["10".toList, "20".toList].map atoi ++ List.replicate (3 - 2) 0) :=
  decode_short_payload 3 ["10".toList, "20".toList] (by decide) (by decide) (by decide)

/-- C8 as stated fails.  On the payload `2$7*ab*` `SendPacket` raises nothing and discards
nothing: it gives the socket a 12-byte packet holding the values 7 and 0, and counts the
packet as sent. -/
theorem sendPacket_nonNumeric_sent :
    SendPacket (freshSender 0 "2$7*ab*".toList)
      = some { m_trsmode := 0, m_obfsValues := "7*ab*".toList, m_pktSize := 512,
               m_maxBytes := 0, m_totBytes := 512,
               sent := [{ values := [7, 0], size := 12 }] } := by
  decide

/-- C8 as amended.  `SendPacket` rejects no piece of a payload with at most as many pieces as
declared: the packet it hands to the socket holds, for piece number `j`, the `atoi` value of
the piece, which is 0 when the piece does not start with white space, a sign or a digit. -/
theorem sendPacket_nonNumeric_zero (app : OnOffMLM) (count : Nat) (pieces : List Text)
    (hmode : app.m_trsmode ≤ 2)
    (hpay : app.m_obfsValues = natToText count ++ '$' :: starred pieces)
    (hcount : count ≤ 536870910) (hstar : ∀ t ∈ pieces, '*' ∉ t)
    (hfit : pieces.length ≤ count) :
    ∃ app1 values, SendPacket app = some app1
      ∧ app1.sent = app.sent ++ [{ values := values, size := 4 + 4 * count }]
      ∧ values.length = count
      ∧ ∀ j, j < pieces.length →
          values.getD j 0 = atoi (pieces.getD j [])
            ∧ (NonNumeric (pieces.getD j []) → values.getD j 0 = 0) := by
  refine ⟨_, pieces.map atoi ++ List.replicate (count - pieces.length) 0,
    SendPacket_starred app count pieces hmode hpay hcount hstar hfit, rfl, ?_, ?_⟩
  · simp
    omega
  · intro j hj
    have e : (pieces.map atoi ++ List.replicate (count - pieces.length) 0).getD j 0
        = atoi (pieces.getD j []) := by
      rw [List.getD_eq_getElem?_getD, List.getD_eq_getElem?_getD,
        List.getElem?_append_left (by simpa using hj), List.getElem?_map,
        List.getElem?_eq_getElem hj]
      simp
    exact ⟨e, fun h => by rw [e]; exact atoi_nonNumeric _ h⟩

/-- C8 as amended, at the payload `2$7*ab*`. -/
theorem sendPacket_nonNumeric_zero_witness :
    ∃ app1 values,
      SendPacket (freshSender 0 (natToText 2 ++ '$' :: starred ["7".toList, "ab".toList]))
          = some app1
      ∧ app1.sent
          = (freshSender 0 (natToText 2 ++ '$' :: starred ["7".toList, "ab".toList])).sent
              ++ [{ values := values, size := 4 + 4 * 2 }]
      ∧ values.length = 2
      ∧ ∀ j, j < ["7".toList, "ab".toList].length →
          values.getD j 0 = atoi (["7".toList, "ab".toList].getD j [])
            ∧ (NonNumeric (["7".toList, "ab".toList].getD j []) → values.getD j 0 = 0) :=
  sendPacket_nonNumeric_zero
    (freshSender 0 (natToText 2 ++ '$' :: starred ["7".toList, "ab".toList])) 2
    ["7".toList, "ab".toList] (by decide) rfl (by decide) (by decide) (by decide)

/-- C9 as stated fails.  Run the two distribution installers in UDP mode (`--UdpTcp=udp`)
on the default 2 by 2 grid, in the order of session type 2.  Both return; the sender that
`InstallApplicationLead0ToEvenMeters` addresses to Member 2 has the empty `ObfsValues`,
and the empty text is not the encoding of any one-element vector. -/
theorem distribution_udp_no_payload :
    ((InstallApplicationLead1ToOddMeters
          { defaultMeshTest (fun _ => 0) with m_UdpTcpMode := "udp" }).bind
        InstallApplicationLead0ToEvenMeters).map (fun t => senderRoutes t.installed)
        = some [(0, 0, []), (0, 2, [])]
      ∧ ∀ v : Int, ([] : Text) ≠ encodeValues [v] := by
  refine ⟨by decide, fun v h => ?_⟩
  rw [← singlePayload_eq] at h
  simp [singlePayload] at h

/-- C9 as amended.  In TCP mode, with the combined mask `c` allocated for all nodes, each
distribution installer returns and installs exactly one sender per Member assigned to its
Aggregator, in loop order: Lead1 (node 1) for the odd `i` with `3 ≤ i < N`, Lead0 (node 0)
for the even `i` with `2 ≤ i < N`.  The sender addressed to Member `i` carries the encoding
of the one-element vector `[c[i]]`, the text `1$<c[i]>*`, and nothing else of `c`. -/
theorem distribution_one_entry (t : MeshTest) (c : List Int)
    (hmode : t.m_UdpTcpMode ≠ "udp") (hc : t.m_obfVector10_plus_obfVector01 = some c)
    (hn : 0 ≤ nodeCount t) (hlen : (nodeCount t).toNat ≤ c.length) :
    (∃ t1, InstallApplicationLead1ToOddMeters t = some t1
        ∧ senderRoutes t1.installed = senderRoutes t.installed ++
            (oddMeters (nodeCount t).toNat).map fun (i : Nat) =>
              ((1 : Int), (i : Int), encodeValues [c.getD i 0]))
      ∧ (∃ t1, InstallApplicationLead0ToEvenMeters t = some t1
        ∧ senderRoutes t1.installed = senderRoutes t.installed ++
            (evenMeters (nodeCount t).toNat).map fun (i : Nat) =>
              ((0 : Int), (i : Int), encodeValues [c.getD i 0]))
      ∧ (∀ i, i ∈ oddMeters (nodeCount t).toNat
          ↔ 3 ≤ i ∧ i < (nodeCount t).toNat ∧ i % 2 = 1)
      ∧ (∀ i, i ∈ evenMeters (nodeCount t).toNat
          ↔ 2 ≤ i ∧ i < (nodeCount t).toNat ∧ i % 2 = 0)
      ∧ (∀ v : Int, encodeValues [v] = ['1', '$'] ++ intToText v ++ ['*']) := by
  have hnn : ¬ nodeCount t < 0 := by omega
  refine ⟨?_, ?_, mem_oddMeters _, mem_evenMeters _, ?_⟩
  · unfold InstallApplicationLead1ToOddMeters
    rw [if_neg hnn, foldlM_lead1ToOddMeter c _ t hmode hc (by
      intro i hi
      have := (mem_oddMeters _ _).mp hi
      omega)]
    exact ⟨_, rfl, by simp only [senderRoutes_append, senderRoutes_lead1OddApps]⟩
  · unfold InstallApplicationLead0ToEvenMeters
    rw [if_neg hnn, foldlM_lead0ToEvenMeter c _ t hmode hc (by
      intro i hi
      have := (mem_evenMeters _ _).mp hi
      omega)]
    exact ⟨_, rfl, by simp only [senderRoutes_append, senderRoutes_lead0EvenApps]⟩
  · intro v
    rw [← singlePayload_eq]
    rfl

/-- C9 as amended, at the state of Scenario A. -/
theorem distribution_one_entry_witness :
    (∃ t1, InstallApplicationLead1ToOddMeters (scenarioMesh fun _ => 0) = some t1
        ∧ senderRoutes t1.installed = senderRoutes (scenarioMesh fun _ => 0).installed ++
            (oddMeters (nodeCount (scenarioMesh fun _ => 0)).toNat).map fun (i : Nat) =>
              ((1 : Int), (i : Int), encodeValues [([0, 0, 0, 20] : List Int).getD i 0]))
      ∧ (∃ t1, InstallApplicationLead0ToEvenMeters (scenarioMesh fun _ => 0) = some t1
        ∧ senderRoutes t1.installed = senderRoutes (scenarioMesh fun _ => 0).installed ++
            (evenMeters (nodeCount (scenarioMesh fun _ => 0)).toNat).map fun (i : Nat) =>
              ((0 : Int), (i : Int), encodeValues [([0, 0, 0, 20] : List Int).getD i 0]))
      ∧ (∀ i, i ∈ oddMeters (nodeCount (scenarioMesh fun _ => 0)).toNat
          ↔ 3 ≤ i ∧ i < (nodeCount (scenarioMesh fun _ => 0)).toNat ∧ i % 2 = 1)
      ∧ (∀ i, i ∈ evenMeters (nodeCount (scenarioMesh fun _ => 0)).toNat
          ↔ 2 ≤ i ∧ i < (nodeCount (scenarioMesh fun _ => 0)).toNat ∧ i % 2 = 0)
      ∧ (∀ v : Int, encodeValues [v] = ['1', '$'] ++ intToText v ++ ['*']) :=
  distribution_one_entry (scenarioMesh fun _ => 0) [0, 0, 0, 20]
    (by decide) rfl (by decide) (by decide)

/-- C10 as stated fails.  In UDP mode on the 2 by 2 grid `InstallApplicationLead0ToLead1`
stores the zero vector in `m_obfVector01` and installs the Lead0 sender with the empty
`ObfsValues`, which is not the encoding of the stored vector. -/
theorem exchange_udp_no_payload :
    (InstallApplicationLead0ToLead1
        { defaultMeshTest (fun _ => 0) with m_UdpTcpMode := "udp" } (fun _ => 0)).map
        (fun t => (t.m_obfVector01, senderRoutes t.installed))
        = some (some [0, 0, 0, 0], [(0, 1, [])])
      ∧ ([] : Text) ≠ encodeValues [0, 0, 0, 0] := by
  decide

/-- C10 as amended.  In TCP mode the payload of the sender that Lead0 (node 0) addresses to
Lead1 (node 1) is the encoding of the vector Lead0 has just drawn and stored as
`m_obfVector01`, and the payload of the sender that Lead1 addresses to Lead0 is the encoding
of the vector Lead1 has just drawn and stored as `m_obfVector10`.  Either payload is
computed from the sender's own draws only: the text is the same whatever the other
Aggregator's vector is, so the combined mask is not what is sent. -/
theorem exchange_payload_own_draw (t : MeshTest) (hmode : t.m_UdpTcpMode ≠ "udp")
    (hn : 0 ≤ nodeCount t) :
    (∀ seeded : Nat → Nat, ∃ t1, InstallApplicationLead0ToLead1 t seeded = some t1
        ∧ t1.m_obfVector01 = some (drawMasks seeded (nodeCount t).toNat)
        ∧ senderRoutes t1.installed = senderRoutes t.installed ++
            [((0 : Int), (1 : Int), encodeValues (drawMasks seeded (nodeCount t).toNat))])
      ∧ (∀ a : List Int, (nodeCount t).toNat ≤ a.length →
          ∃ t2, InstallApplicationLead1ToLead0 { t with m_obfVector01 := some a } = some t2
            ∧ t2.m_obfVector10 = some (drawMasks t.rand (nodeCount t).toNat)
            ∧ senderRoutes t2.installed = senderRoutes t.installed ++
                [((1 : Int), (0 : Int), encodeValues (drawMasks t.rand (nodeCount t).toNat))]) := by
  refine ⟨fun seeded => lead0ToLead1_tcp t seeded hmode hn, ?_⟩
  intro a ha
  obtain ⟨t2, h1, h2, _, h4⟩ :=
    lead1ToLead0_tcp { t with m_obfVector01 := some a } a hmode hn rfl ha
  exact ⟨t2, h1, h2, h4⟩

/-- C10 as amended, at the default 2 by 2 grid. -/
theorem exchange_payload_own_draw_witness :
    (∀ seeded : Nat → Nat,
        ∃ t1, InstallApplicationLead0ToLead1 (defaultMeshTest fun _ => 0) seeded = some t1
        ∧ t1.m_obfVector01
            = some (drawMasks seeded (nodeCount (defaultMeshTest fun _ => 0)).toNat)
        ∧ senderRoutes t1.installed = senderRoutes (defaultMeshTest fun _ => 0).installed ++
            [((0 : Int), (1 : Int),
              encodeValues (drawMasks seeded (nodeCount (defaultMeshTest fun _ => 0)).toNat))])
      ∧ (∀ a : List Int, (nodeCount (defaultMeshTest fun _ => 0)).toNat ≤ a.length →
          ∃ t2, InstallApplicationLead1ToLead0
              { (defaultMeshTest fun _ => 0) with m_obfVector01 := some a } = some t2
            ∧ t2.m_obfVector10
                = some (drawMasks (defaultMeshTest fun _ => 0).rand
                    (nodeCount (defaultMeshTest fun _ => 0)).toNat)
            ∧ senderRoutes t2.installed = senderRoutes (defaultMeshTest fun _ => 0).installed ++
                [((1 : Int), (0 : Int),
                  encodeValues (drawMasks (defaultMeshTest fun _ => 0).rand
                    (nodeCount (defaultMeshTest fun _ => 0)).toNat))]) :=
  exchange_payload_own_draw (defaultMeshTest fun _ => 0) (by decide) (by decide)



/-- C11, the partition is total and disjoint.  For every node count `n ≥ 2` the indices
visited by the loop over the even Members (Lead0) and by the loop over the odd Members
(Lead1) have no index in common, every index in `2..n-1` is visited by one of them and no
other index is, no index is visited twice, and the two loops together visit `n - 2`
indices. -/
theorem partition_total_disjoint (n : Nat) (hn : 2 ≤ n) :
    (∀ i, ¬ (i ∈ evenMeters n ∧ i ∈ oddMeters n))
      ∧ (∀ i, 2 ≤ i → i < n → (i ∈ evenMeters n ∨ i ∈ oddMeters n))
      ∧ (∀ i, (i ∈ evenMeters n ∨ i ∈ oddMeters n) → 2 ≤ i ∧ i < n)
      ∧ (evenMeters n).Nodup ∧ (oddMeters n).Nodup
      ∧ (evenMeters n).length + (oddMeters n).length + 2 = n := by
  refine ⟨?_, ?_, ?_, stepLoop_nodup _ _ _, stepLoop_nodup _ _ _, ?_⟩
  · intro i h
    rw [mem_evenMeters, mem_oddMeters] at h
    omega
  · intro i h2 hi
    rw [mem_evenMeters, mem_oddMeters]
    omega
  · intro i h
    rw [mem_evenMeters, mem_oddMeters] at h
    omega
  · unfold evenMeters oddMeters
    rw [stepLoop_length n 2 n (by omega), stepLoop_length n 3 n (by omega)]
    omega

/-- C11 on the default grid of four nodes. -/
theorem partition_total_disjoint_witness :
    (∀ i, ¬ (i ∈ evenMeters 4 ∧ i ∈ oddMeters 4))
      ∧ (∀ i, 2 ≤ i → i < 4 → (i ∈ evenMeters 4 ∨ i ∈ oddMeters 4))
      ∧ (∀ i, (i ∈ evenMeters 4 ∨ i ∈ oddMeters 4) → 2 ≤ i ∧ i < 4)
      ∧ (evenMeters 4).Nodup ∧ (oddMeters 4).Nodup
      ∧ (evenMeters 4).length + (oddMeters 4).length + 2 = 4 :=
  partition_total_disjoint 4 (by decide)

/-- C13, peer-exchange mask bound.  For every value `r` returned by `rand ()` the mask
`r % 40 + (-20)` satisfies `-20 ≤ mask ≤ 20`; so does every entry of a vector drawn by an
exchange installer of the multiple-lead-meters script and every entry of the mask vector
filled by `Run` of the single-gateway script. -/
theorem maskDraw_bound :
    (∀ r : Nat, -20 ≤ maskDraw r ∧ maskDraw r ≤ 20)
      ∧ (∀ (rand : Nat → Nat) (n : Nat) (x : Int), x ∈ drawMasks rand n → InPeerRange x)
      ∧ (∀ (rand : Nat → Nat) (m_size : Nat) (x : Int),
          x ∈ gatewayMasks rand m_size → InPeerRange x) := by
  refine ⟨?_, ?_, ?_⟩
  · intro r
    have := maskDraw_range r
    omega
  · intro rand n x hx
    unfold drawMasks at hx
    obtain ⟨z, _, rfl⟩ := List.mem_map.mp hx
    have := maskDraw_range (rand z)
    unfold InPeerRange
    omega
  · intro rand m x hx
    rw [gatewayMasks_eq] at hx
    obtain ⟨z, _, rfl⟩ := List.mem_map.mp hx
    have := maskDraw_range (rand z)
    unfold InPeerRange
    omega

/-- C14 on the code.  The values that `rand () % 40 + (-20)` can take are exactly the
integers from -20 to 19: -20 is produced (by `r = 0`), 19 is the largest value (by
`r = 39`), and 20 is produced by no `r`, so the set is not symmetric and misses the
endpoint 20 that the comment `-20 and 20` on the same line announces. -/
theorem maskDraw_values :
    (∀ k : Int, (∃ r : Nat, maskDraw r = k) ↔ (-20 ≤ k ∧ k ≤ 19))
      ∧ (∀ r : Nat, maskDraw r ≠ 20)
      ∧ maskDraw 0 = -20 ∧ maskDraw 39 = 19 := by
  refine ⟨?_, ?_, by decide, by decide⟩
  · intro k
    constructor
    · rintro ⟨r, rfl⟩
      exact maskDraw_range r
    · intro h
      refine ⟨(k + 20).toNat, ?_⟩
      unfold maskDraw
      omega
  · intro r h
    have := maskDraw_range r
    omega

/-- C15, the second-stage range is exactly `[50, 100)`.  For every value `r` returned by
`rand ()` the value `r % 50 + 50` satisfies `50 ≤ value < 100`, and every integer of that
range is produced by some `r`. -/
theorem secondStageDraw_exact :
    (∀ r : Nat, 50 ≤ secondStageDraw r ∧ secondStageDraw r < 100)
      ∧ (∀ k : Int, 50 ≤ k → k < 100 → ∃ r : Nat, secondStageDraw r = k) := by
  refine ⟨secondStageDraw_range, ?_⟩
  intro k h1 h2
  refine ⟨(k - 50).toNat, ?_⟩
  unfold secondStageDraw
  omega

/-- C12 as stated fails.  On the default 2 by 2 grid in TCP mode the vector that
`InstallApplicationLead0ToLead1` draws has 4 entries and its payload declares the count 4,
while the loops over the even and the odd Members visit 2 indices together. -/
theorem mask_vector_longer_than_members :
    ((InstallApplicationLead0ToLead1 (defaultMeshTest fun _ => 0) fun _ => 0).map fun t =>
        (t.m_obfVector01.map List.length, senderRoutes t.installed))
        = some (some 4, [(0, 1, "4$-20*-20*-20*-20*".toList)])
      ∧ (evenMeters 4).length + (oddMeters 4).length = 2 := by
  decide

/-- C12 as amended.  In TCP mode on a grid of `N ≥ 2` nodes each exchanged mask vector has
`N` entries, one per node, and the text before `$` in its payload is the numeral of `N`;
`N` is the number of indices visited by the loops over the even and the odd Members plus 2,
the indices 0 and 1 of the two Aggregators being drawn and sent as well. -/
theorem mask_vector_length (t : MeshTest) (hmode : t.m_UdpTcpMode ≠ "udp")
    (hn : 2 ≤ nodeCount t) :
    (∀ seeded : Nat → Nat, ∃ t1 v, InstallApplicationLead0ToLead1 t seeded = some t1
        ∧ t1.m_obfVector01 = some v ∧ v.length = (nodeCount t).toNat
        ∧ senderRoutes t1.installed = senderRoutes t.installed ++ [(0, 1, encodeValues v)]
        ∧ (splitAtDelim '$' (encodeValues v)).1 = natToText (nodeCount t).toNat)
      ∧ (∀ a : List Int, (nodeCount t).toNat ≤ a.length →
          ∃ t2 v, InstallApplicationLead1ToLead0 { t with m_obfVector01 := some a } = some t2
            ∧ t2.m_obfVector10 = some v ∧ v.length = (nodeCount t).toNat
            ∧ senderRoutes t2.installed = senderRoutes t.installed ++ [(1, 0, encodeValues v)]
            ∧ (splitAtDelim '$' (encodeValues v)).1 = natToText (nodeCount t).toNat)
      ∧ (nodeCount t).toNat
          = (evenMeters (nodeCount t).toNat).length + (oddMeters (nodeCount t).toNat).length
            + 2 := by
  have hn0 : 0 ≤ nodeCount t := by omega
  refine ⟨?_, ?_, ?_⟩
  · intro seeded
    obtain ⟨t1, h1, h2, h3⟩ := lead0ToLead1_tcp t seeded hmode hn0
    refine ⟨t1, _, h1, h2, drawMasks_length _ _, h3, ?_⟩
    rw [declared_count, drawMasks_length]
  · intro a ha
    obtain ⟨t2, h1, h2, _, h4⟩ :=
      lead1ToLead0_tcp { t with m_obfVector01 := some a } a hmode hn0 rfl ha
    refine ⟨t2, _, h1, h2, drawMasks_length _ _, h4, ?_⟩
    rw [declared_count, drawMasks_length]
    rfl
  · unfold evenMeters oddMeters
    rw [stepLoop_length _ 2 _ (by omega), stepLoop_length _ 3 _ (by omega)]
    omega

/-- C12 as amended, on the default 2 by 2 grid. -/
theorem mask_vector_length_witness :
    (∀ seeded : Nat → Nat,
        ∃ t1 v, InstallApplicationLead0ToLead1 (defaultMeshTest fun _ => 0) seeded = some t1
        ∧ t1.m_obfVector01 = some v
        ∧ v.length = (nodeCount (defaultMeshTest fun _ => 0)).toNat
        ∧ senderRoutes t1.installed
            = senderRoutes (defaultMeshTest fun _ => 0).installed ++ [(0, 1, encodeValues v)]
        ∧ (splitAtDelim '$' (encodeValues v)).1
            = natToText (nodeCount (defaultMeshTest fun _ => 0)).toNat)
      ∧ (∀ a : List Int, (nodeCount (defaultMeshTest fun _ => 0)).toNat ≤ a.length →
          ∃ t2 v, InstallApplicationLead1ToLead0
              { (defaultMeshTest fun _ => 0) with m_obfVector01 := some a } = some t2
            ∧ t2.m_obfVector10 = some v
            ∧ v.length = (nodeCount (defaultMeshTest fun _ => 0)).toNat
            ∧ senderRoutes t2.installed
                = senderRoutes (defaultMeshTest fun _ => 0).installed
                    ++ [(1, 0, encodeValues v)]
            ∧ (splitAtDelim '$' (encodeValues v)).1
                = natToText (nodeCount (defaultMeshTest fun _ => 0)).toNat)
      ∧ (nodeCount (defaultMeshTest fun _ => 0)).toNat
          = (evenMeters (nodeCount (defaultMeshTest fun _ => 0)).toNat).length
            + (oddMeters (nodeCount (defaultMeshTest fun _ => 0)).toNat).length + 2 :=
  mask_vector_length (defaultMeshTest fun _ => 0) (by decide) (by decide)

/-- C16 as stated fails.  Take six nodes (Members 2, 3, 4, 5) in TCP mode and run the two
collection installers only, so that no distribution sender exists and no Member is sent an
offset.  All four Members get a collection sender, and each of them, once started, hands
its packet to the socket when its send event fires: four contributions, not three. -/
theorem all_members_contribute :
    ((InstallApplicationOddMetersToLead1 sixNodeMesh).bind
          InstallApplicationEvenMetersToLead0).map (fun t => senderModes t.installed)
        = some [(3, 1, 2), (5, 1, 2), (2, 0, 2), (4, 0, 2)]
      ∧ ((InstallApplicationOddMetersToLead1 sixNodeMesh).bind
          InstallApplicationEvenMetersToLead0).map (fun t => contributions t.installed)
        = some [(3, some [{ values := [50], size := 8 }]),
                (5, some [{ values := [50], size := 8 }]),
                (2, some [{ values := [50], size := 8 }]),
                (4, some [{ values := [50], size := 8 }])] := by
  decide

/-- C16 as amended.  The contribution of a Member does not depend on an offset having
arrived: for every installed sender whose payload is the one-entry text of an `int` value
`v`, `StartApplication` at any time `now` schedules `SendPacket` at `now + FirstSent`
without any condition, and when that event fires the packet holding `v` is handed to the
socket and no event is left. -/
theorem member_sends_unconditionally (s : SenderApp) (v : Int) (now : Int)
    (hmode : s.transMode ≤ 2) (hpay : s.obfsValues = singlePayload v) (hv : IsInt32 v) :
    (StartApplication now (installedProcess s)).scheduled = [now + s.firstSent * 1000000000]
      ∧ ∃ p, runEvent (now + s.firstSent * 1000000000)
            (StartApplication now (installedProcess s)) = some p
          ∧ p.app.sent = [{ values := [v], size := 8 }] ∧ p.scheduled = [] := by
  have hsend := SendPacket_starred (installedProcess s).app 1 [intToText v] hmode
    (by
      show s.obfsValues = _
      rw [hpay, singlePayload_starred])
    (by decide)
    (by
      intro t ht
      rw [List.mem_singleton] at ht
      rw [ht]
      exact intToText_no_star v)
    (by simp)
  refine ⟨rfl, ?_⟩
  simp only [runEvent, StartApplication, ScheduleNextTx, installedProcess, List.nil_append,
    List.mem_singleton, if_true, List.erase_cons_head, List.not_mem_nil, if_false]
  simp only [installedProcess] at hsend
  rw [hsend]
  simp [atoi_intToText v hv]

/-- C16 as amended, for the collection sender of Member 2 with the value 95. -/
theorem member_sends_unconditionally_witness :
    (StartApplication 0 (installedProcess
        { defaultSender "ns3::TcpSocketFactory" 0 2 with
          transMode := 2, obfsValues := singlePayload 95 })).scheduled
        = [0 + ({ defaultSender "ns3::TcpSocketFactory" 0 2 with
            transMode := 2, obfsValues := singlePayload 95 } : SenderApp).firstSent
              * 1000000000]
      ∧ ∃ p, runEvent (0 + ({ defaultSender "ns3::TcpSocketFactory" 0 2 with
            transMode := 2, obfsValues := singlePayload 95 } : SenderApp).firstSent
              * 1000000000)
            (StartApplication 0 (installedProcess
              { defaultSender "ns3::TcpSocketFactory" 0 2 with
                transMode := 2, obfsValues := singlePayload 95 })) = some p
          ∧ p.app.sent = [{ values := [95], size := 8 }] ∧ p.scheduled = [] :=
  member_sends_unconditionally
    { defaultSender "ns3::TcpSocketFactory" 0 2 with
      transMode := 2, obfsValues := singlePayload 95 }
    95 0 (by decide) rfl (by decide)

/-- C17 on the code.  With session type 1 on the default 2 by 2 grid in TCP mode (every draw
of `rand ()` being 0), `Run` installs three senders and no more: the exchange from Lead0 to
Lead1, the exchange from Lead1 to Lead0, and the distribution from Lead1 to the odd
Member 3.  Nothing is sent to the even Member 2 and no collection sender (`TransMode` 2) is
installed on a Member. -/
theorem run_bidirectional_installs :
    (Run (defaultMeshTest fun _ => 0) fun _ => 0).map (fun t => senderModes t.installed)
        = some [(0, 1, 0), (1, 0, 0), (1, 3, 1)]
      ∧ (Run (defaultMeshTest fun _ => 0) fun _ => 0).map (fun t => senderRoutes t.installed)
        = some [(0, 1, "4$-20*-20*-20*-20*".toList), (1, 0, "4$-20*-20*-20*-20*".toList),
                (1, 3, "1$-40*".toList)] := by
  decide

/-- C18 on the code.  In UDP mode on the default 2 by 2 grid, session type 2 installs the two
distribution senders and then the exchange sender of `InstallApplicationLead1ToLead0`, and
session type 3 installs the two collection senders and then the exchange sender of
`InstallApplicationLead0ToLead1`; in TCP mode on a 1 by 2 grid session type 3 installs the
exchange sender from Lead0 to Lead1 with its mask payload.  So a peer-exchange application
(`TransMode` 0) is installed in both one-way sessions. -/
theorem run_one_way_installs_exchange :
    (Run { defaultMeshTest (fun _ => 0) with m_typeOfOperation := 2, m_UdpTcpMode := "udp" }
        fun _ => 0).map (fun t => senderModes t.installed)
        = some [(0, 0, 1), (0, 2, 1), (0, 0, 0)]
      ∧ (Run { defaultMeshTest (fun _ => 0) with
                m_typeOfOperation := 3, m_UdpTcpMode := "udp" }
        fun _ => 0).map (fun t => senderModes t.installed)
        = some [(0, 0, 2), (0, 0, 2), (0, 1, 0)]
      ∧ (Run { defaultMeshTest (fun _ => 0) with m_typeOfOperation := 3, m_xSize := 1 }
        fun _ => 0).map (fun t => senderRoutes t.installed)
        = some [(0, 1, "2$-20*-20*".toList)] := by
  decide

/-- C19 as stated fails.  For the vector `[100, 200, 150, 95]`, whose text has 17
characters, `SendPacket` hands the socket one packet of 20 bytes made of the four `int`
values: the bytes on the wire are not the text. -/
theorem sendPacket_not_text :
    (SendPacket (freshSender 0 (encodeValues [100, 200, 150, 95]))).map (fun a => a.sent)
        = some [{ values := [100, 200, 150, 95], size := 20 }]
      ∧ (encodeValues [100, 200, 150, 95]).length = 17 := by
  decide

/-- C19 as amended.  For every vector `v` of `int` values handed to a sender as the text
`encodeValues v`, `SendPacket` parses the text back and hands the socket one packet of
`4 * n + 4` bytes whose leading `4 * n` bytes are the `n` values of `v` in index order, as
`int` objects and not as text; the member `m_obfsValues` keeps the text after the `$`. -/
theorem sendPacket_binary_values (app : OnOffMLM) (v : List Int)
    (hmode : app.m_trsmode ≤ 2) (hpay : app.m_obfsValues = encodeValues v)
    (hv : ∀ x ∈ v, IsInt32 x) (hlen : v.length ≤ 536870910) :
    ∃ app1, SendPacket app = some app1
      ∧ app1.sent = app.sent ++ [{ values := v, size := 4 * v.length + 4 }]
      ∧ app1.m_obfsValues = starred (v.map intToText) := by
  refine ⟨_, SendPacket_encodeValues app v hmode hpay hv hlen, ?_, rfl⟩
  simp
  omega

/-- C19 as amended, for the vector of Scenario A. -/
theorem sendPacket_binary_values_witness :
    ∃ app1, SendPacket (freshSender 0 (encodeValues [100, 200, 150, 95])) = some app1
      ∧ app1.sent = (freshSender 0 (encodeValues [100, 200, 150, 95])).sent
          ++ [{ values := [100, 200, 150, 95],
                size := 4 * ([100, 200, 150, 95] : List Int).length + 4 }]
      ∧ app1.m_obfsValues = starred (([100, 200, 150, 95] : List Int).map intToText) :=
  sendPacket_binary_values (freshSender 0 (encodeValues [100, 200, 150, 95]))
    [100, 200, 150, 95] (by decide) rfl (by decide) (by decide)

/-- C20 as stated fails.  On a grid of three nodes in TCP mode (every draw of `rand ()`
being 0) Lead1 has no Member, yet the combined mask computed by
`InstallApplicationLead1ToLead0` has three entries. -/
theorem combined_mask_not_empty :
    oddMeters 3 = []
      ∧ ((InstallApplicationLead0ToLead1
            { defaultMeshTest (fun _ => 0) with m_xSize := 3, m_ySize := 1 }
            fun _ => 0).bind InstallApplicationLead1ToLead0).map
          (fun t => t.m_obfVector10_plus_obfVector01) = some (some [-40, -40, -40]) := by
  decide

/-- C20 as amended.  When the Member set of an Aggregator is empty (Lead1 when `N ≤ 3`,
Lead0 when `N ≤ 2`) its distribution installer returns without installing anything and
leaves the state as it is; the combined mask is not empty for that: in TCP mode
`InstallApplicationLead1ToLead0` gives it `N` entries, one per node. -/
theorem empty_partition_no_distribution (t : MeshTest) (hn : 0 ≤ nodeCount t) :
    (nodeCount t ≤ 3 → oddMeters (nodeCount t).toNat = []
        ∧ InstallApplicationLead1ToOddMeters t = some t)
      ∧ (nodeCount t ≤ 2 → evenMeters (nodeCount t).toNat = []
        ∧ InstallApplicationLead0ToEvenMeters t = some t)
      ∧ (t.m_UdpTcpMode ≠ "udp" → ∀ a : List Int, (nodeCount t).toNat ≤ a.length →
          ∃ t2 c, InstallApplicationLead1ToLead0 { t with m_obfVector01 := some a } = some t2
            ∧ t2.m_obfVector10_plus_obfVector01 = some c
            ∧ c.length = (nodeCount t).toNat) := by
  have hnn : ¬ nodeCount t < 0 := by omega
  refine ⟨?_, ?_, ?_⟩
  · intro h
    have e : oddMeters (nodeCount t).toNat = [] := stepLoop_nil _ _ _ (by omega)
    refine ⟨e, ?_⟩
    unfold InstallApplicationLead1ToOddMeters
    rw [if_neg hnn, e]
    rfl
  · intro h
    have e : evenMeters (nodeCount t).toNat = [] := stepLoop_nil _ _ _ (by omega)
    refine ⟨e, ?_⟩
    unfold InstallApplicationLead0ToEvenMeters
    rw [if_neg hnn, e]
    rfl
  · intro hmode a ha
    obtain ⟨t2, h1, _, h3, _⟩ :=
      lead1ToLead0_tcp { t with m_obfVector01 := some a } a hmode hn rfl ha
    refine ⟨t2, _, h1, h3, ?_⟩
    rw [List.length_map, List.length_range]
    rfl

/-- C20 as amended, on a grid of three nodes. -/
theorem empty_partition_no_distribution_witness :
    (nodeCount { defaultMeshTest (fun _ => 0) with m_xSize := 3, m_ySize := 1 } ≤ 3 →
        oddMeters (nodeCount
            { defaultMeshTest (fun _ => 0) with m_xSize := 3, m_ySize := 1 }).toNat = []
        ∧ InstallApplicationLead1ToOddMeters
            { defaultMeshTest (fun _ => 0) with m_xSize := 3, m_ySize := 1 }
          = some { defaultMeshTest (fun _ => 0) with m_xSize := 3, m_ySize := 1 })
      ∧ (nodeCount { defaultMeshTest (fun _ => 0) with m_xSize := 3, m_ySize := 1 } ≤ 2 →
        evenMeters (nodeCount
            { defaultMeshTest (fun _ => 0) with m_xSize := 3, m_ySize := 1 }).toNat = []
        ∧ InstallApplicationLead0ToEvenMeters
            { defaultMeshTest (fun _ => 0) with m_xSize := 3, m_ySize := 1 }
          = some { defaultMeshTest (fun _ => 0) with m_xSize := 3, m_ySize := 1 })
      ∧ (({ defaultMeshTest (fun _ => 0) with m_xSize := 3, m_ySize := 1 }
            : MeshTest).m_UdpTcpMode ≠ "udp" →
          ∀ a : List Int,
            (nodeCount
              { defaultMeshTest (fun _ => 0) with m_xSize := 3, m_ySize := 1 }).toNat
              ≤ a.length →
          ∃ t2 c, InstallApplicationLead1ToLead0
              { ({ defaultMeshTest (fun _ => 0) with m_xSize := 3, m_ySize := 1 }
                  : MeshTest) with m_obfVector01 := some a } = some t2
            ∧ t2.m_obfVector10_plus_obfVector01 = some c
            ∧ c.length = (nodeCount
              { defaultMeshTest (fun _ => 0) with m_xSize := 3, m_ySize := 1 }).toNat) :=
  empty_partition_no_distribution
    { defaultMeshTest (fun _ => 0) with m_xSize := 3, m_ySize := 1 } (by decide)

/-- C21, a cancelled send never executes.  Take a sender with no event pending and call
`StartApplication` at any time `now`.  While the simulator has not reached the firing time
`now + FirstSent`, the scheduled `SendPacket` stays pending.  If `StopApplication` runs then,
the event leaves the queue, and whatever times the simulator reaches afterwards (the firing
time included) no `SendPacket` runs: the state stays as `StopApplication` left it, and the
members used by `SendPacket`, the packets handed to the socket among them, are those from
before the start. -/
theorem cancelled_send_never_runs (p : SenderProcess) (now : Int) (earlier later : List Int)
    (hidle : p.scheduled = []) (hpending : now + p.m_firstSent ∉ earlier) :
    runEvents earlier (StartApplication now p) = some (StartApplication now p)
      ∧ (StartApplication now p).scheduled = [now + p.m_firstSent]
      ∧ (StopApplication (StartApplication now p)).scheduled = []
      ∧ runEvents later (StopApplication (StartApplication now p))
          = some (StopApplication (StartApplication now p))
      ∧ (StopApplication (StartApplication now p)).app = p.app := by
  have hs : (StartApplication now p).scheduled = [now + p.m_firstSent] := by
    simp [StartApplication, ScheduleNextTx, hidle]
  have hstop : (StopApplication (StartApplication now p)).scheduled = [] := by
    simp [StopApplication, CancelEvents, StartApplication, ScheduleNextTx, hidle]
  refine ⟨?_, hs, hstop, ?_, rfl⟩
  · apply runEvents_idle
    intro e he hmem
    rw [hs, List.mem_singleton] at hmem
    exact hpending (hmem ▸ he)
  · apply runEvents_idle
    intro e _ hmem
    rw [hstop] at hmem
    exact absurd hmem (List.not_mem_nil _)

/-- C21 for the collection sender of Member 2, started at time 0 and stopped before its
event at 30 s; the simulator then reaches 30 s and 60 s. -/
theorem cancelled_send_never_runs_witness :
    runEvents [10000000000, 20000000000]
        (StartApplication 0 (installedProcess
          { defaultSender "ns3::TcpSocketFactory" 0 2 with
            transMode := 2, obfsValues := singlePayload 95 }))
        = some (StartApplication 0 (installedProcess
          { defaultSender "ns3::TcpSocketFactory" 0 2 with
            transMode := 2, obfsValues := singlePayload 95 }))
      ∧ (StartApplication 0 (installedProcess
          { defaultSender "ns3::TcpSocketFactory" 0 2 with
            transMode := 2, obfsValues := singlePayload 95 })).scheduled
        = [0 + (installedProcess
          { defaultSender "ns3::TcpSocketFactory" 0 2 with
            transMode := 2, obfsValues := singlePayload 95 }).m_firstSent]
      ∧ (StopApplication (StartApplication 0 (installedProcess
          { defaultSender "ns3::TcpSocketFactory" 0 2 with
            transMode := 2, obfsValues := singlePayload 95 }))).scheduled = []
      ∧ runEvents [30000000000, 60000000000]
          (StopApplication (StartApplication 0 (installedProcess
            { defaultSender "ns3::TcpSocketFactory" 0 2 with
              transMode := 2, obfsValues := singlePayload 95 })))
        = some (StopApplication (StartApplication 0 (installedProcess
            { defaultSender "ns3::TcpSocketFactory" 0 2 with
              transMode := 2, obfsValues := singlePayload 95 })))
      ∧ (StopApplication (StartApplication 0 (installedProcess
          { defaultSender "ns3::TcpSocketFactory" 0 2 with
            transMode := 2, obfsValues := singlePayload 95 }))).app
        = (installedProcess
          { defaultSender "ns3::TcpSocketFactory" 0 2 with
            transMode := 2, obfsValues := singlePayload 95 }).app :=
  cancelled_send_never_runs
    (installedProcess
      { defaultSender "ns3::TcpSocketFactory" 0 2 with
        transMode := 2, obfsValues := singlePayload 95 })
    0 [10000000000, 20000000000] [30000000000, 60000000000] rfl (by decide)

/-- C23 on the code.  `MaxBytes` limits nothing.  `SendPacket` does the same whatever
`m_maxBytes` is, and `StartApplication` schedules a `SendPacket` whatever `m_totBytes` and
`m_maxBytes` are.  For a sender with `MaxBytes` 512 and `PacketSize` 512: after the first
packet the counter of bytes sent is 512, so `MaxBytes` is reached; the application is started
again at 40 s, and when the event of that start fires at 70 s a second packet is handed to the
socket and the counter goes to 1024. -/
theorem maxBytes_not_enforced :
    (∀ (app : OnOffMLM) (m : Nat),
        SendPacket { app with m_maxBytes := m }
          = (SendPacket app).map fun a => { a with m_maxBytes := m })
      ∧ (∀ (now : Int) (p : SenderProcess),
          (StartApplication now p).scheduled = p.scheduled ++ [now + p.m_firstSent])
      ∧ (simulate [SenderCall.start 0, SenderCall.reach 30000000000] limitedSender).map
          (fun q => (q.app.m_maxBytes, q.app.m_totBytes, q.app.sent.length))
        = some (512, 512, 1)
      ∧ (simulate [SenderCall.start 0, SenderCall.reach 30000000000,
            SenderCall.start 40000000000, SenderCall.reach 70000000000] limitedSender).map
          (fun q => (q.app.m_maxBytes, q.app.m_totBytes, q.app.sent.length))
        = some (512, 1024, 2) := by
  refine ⟨?_, fun _ _ => rfl, by decide, by decide⟩
  intro app m
  unfold SendPacket
  by_cases hm : app.m_trsmode = 0 ∨ app.m_trsmode = 1 ∨ app.m_trsmode = 2
  · rw [if_pos hm, if_pos hm]
    cases parseObfsValues app.m_obfsValues with
    | none => rfl
    | some r =>
      dsimp only
      by_cases hs : 2147483647 < 4 + 4 * r.arraySize.toNat
      · rw [if_pos hs, if_pos hs]
        rfl
      · rw [if_neg hs, if_neg hs]
        rfl
  · rw [if_neg hm, if_neg hm]
    rfl

/-- C29, at most one packet per start.  Start from a freshly installed sender and let the
simulator make any sequence of calls (`StartApplication` at any times, `StopApplication`,
reaching any times).  In every state reached, the packets handed to the socket plus the
`SendPacket` events still queued are at most as many as the `StartApplication` calls made.
Each `StartApplication` adds exactly one `SendPacket` event, due `FirstSent` after the call,
and changes nothing that `SendPacket` uses; reaching a time never adds an event: it leaves
the queue as it is or takes the event that fired out of it.  The members `m_onTime`,
`m_offTime`, `m_cbrRate` and `m_interval` are read by none of these methods except for the
bookkeeping of `m_residualBits` in `CancelEvents`, which nothing here reads. -/
theorem one_packet_per_start (s : SenderApp) (calls : List SenderCall) (q : SenderProcess)
    (hreach : simulate calls (installedProcess s) = some q) :
    q.app.sent.length + q.scheduled.length ≤ startCount calls
      ∧ (∀ (now : Int) (p : SenderProcess),
          (StartApplication now p).scheduled = p.scheduled ++ [now + p.m_firstSent]
            ∧ (StartApplication now p).app = p.app)
      ∧ (∀ (e : Int) (p r : SenderProcess), runEvent e p = some r →
          r.scheduled = p.scheduled ∨ r.scheduled = p.scheduled.erase e) := by
  refine ⟨?_, fun _ _ => ⟨rfl, rfl⟩, ?_⟩
  · have h := simulate_balance calls (installedProcess s) q hreach
    have h0 : (installedProcess s).app.sent.length + (installedProcess s).scheduled.length
        = 0 := rfl
    omega
  · intro e p r h
    rcases runEvent_queue e p r h with ⟨rfl, _⟩ | ⟨_, hq, _⟩
    · exact Or.inl rfl
    · exact Or.inr hq

/-- C29 for the collection sender of Member 2: one start at time 0, then the simulator
reaches 30 s twice; one packet has been sent. -/
theorem one_packet_per_start_witness :
    simulate [SenderCall.start 0, SenderCall.reach 30000000000, SenderCall.reach 30000000000]
        (installedProcess
          { defaultSender "ns3::TcpSocketFactory" 0 2 with
            transMode := 2, obfsValues := singlePayload 95 })
        = some
          { app := { m_trsmode := 2, m_obfsValues := "95*".toList, m_pktSize := 512,
                     m_maxBytes := 0, m_totBytes := 512,
                     sent := [{ values := [95], size := 8 }] }
            m_firstSent := 30000000000
            m_socket := true, m_sendEvent := some 30000000000, scheduled := [] }
      ∧ (1 + 0 ≤ startCount
            [SenderCall.start 0, SenderCall.reach 30000000000, SenderCall.reach 30000000000]
        ∧ (∀ (now : Int) (p : SenderProcess),
            (StartApplication now p).scheduled = p.scheduled ++ [now + p.m_firstSent]
              ∧ (StartApplication now p).app = p.app)
        ∧ (∀ (e : Int) (p r : SenderProcess), runEvent e p = some r →
            r.scheduled = p.scheduled ∨ r.scheduled = p.scheduled.erase e)) :=
  ⟨by decide,
   one_packet_per_start
    { defaultSender "ns3::TcpSocketFactory" 0 2 with
      transMode := 2, obfsValues := singlePayload 95 }
    [SenderCall.start 0, SenderCall.reach 30000000000, SenderCall.reach 30000000000]
    { app := { m_trsmode := 2, m_obfsValues := "95*".toList, m_pktSize := 512,
               m_maxBytes := 0, m_totBytes := 512,
               sent := [{ values := [95], size := 8 }] }
      m_firstSent := 30000000000
      m_socket := true, m_sendEvent := some 30000000000, scheduled := [] }
    (by decide)⟩

/-- C22 as stated fails.  Run the single-gateway script with `--size=3` in TCP mode, the
calls of `rand ()` returning 0, 1, 2, so that the mask vector is `[-20, -19, -18]`.  The
payload addressed to Member 1 is `1$-20*`, the text of entry 0, and the one addressed to
Member 2 is `1$-19*`, the text of entry 1: Member `i` is not sent entry `i`.  In UDP mode the
senders carry no payload and are addressed to node 0. -/
theorem gateway_offset_not_entry_i :
    (allocateGatewayMasks gatewayOfThree fun z => z).m_obfVector10_plus_obfVector01
        = some [-20, -19, -18]
      ∧ (InstallApplicationGatewayToSMs (allocateGatewayMasks gatewayOfThree fun z => z)).map
          (fun t => gatewayRoutes t.installed)
        = some [(0, 1, some "1$-20*".toList), (0, 2, some "1$-19*".toList)]
      ∧ singlePayload (-19) ≠ "1$-20*".toList
      ∧ singlePayload (-18) ≠ "1$-19*".toList
      ∧ (InstallApplicationGatewayToSMs
            (allocateGatewayMasks { gatewayOfThree with m_UdpTcpMode := "udp" } fun z => z)).map
          (fun t => gatewayRoutes t.installed)
        = some [(0, 0, none), (0, 0, none)] := by
  refine ⟨by decide, by decide, by decide, by decide, by decide⟩

/-- C22 as amended.  In the single-gateway script in TCP mode, with the mask vector `c` of
`m_size` entries filled by `Run`, `InstallApplicationGatewayToSMs` returns and installs on
node 0, for every Member `i` with `1 ≤ i < m_size` in increasing order, one sender addressed
to node `i` whose payload is the one-entry text `1$<c[i-1]>*` of the entry `i - 1` of the
vector, the draw number `i - 1` of `rand ()`. -/
theorem gateway_distribution_index (t : GatewayMeshTest) (rand : Nat → Nat)
    (hmode : t.m_UdpTcpMode ≠ "udp") (hsize : 0 ≤ t.m_size) :
    ∃ t1 c, (allocateGatewayMasks t rand).m_obfVector10_plus_obfVector01 = some c
      ∧ c = (List.range t.m_size.toNat).map (fun z => maskDraw (rand z))
      ∧ InstallApplicationGatewayToSMs (allocateGatewayMasks t rand) = some t1
      ∧ gatewayRoutes t1.installed = gatewayRoutes t.installed ++
          ((List.range' 1 (t.m_size.toNat - 1)).map fun (i : Nat) =>
            ((0 : Int), (i : Int), some (singlePayload (c.getD (i - 1) 0))))
      ∧ (∀ i : Nat, i ∈ List.range' 1 (t.m_size.toNat - 1) ↔ 1 ≤ i ∧ (i : Int) < t.m_size)
      ∧ (∀ i : Nat, 1 ≤ i → (i : Int) < t.m_size →
          c.getD (i - 1) 0 = maskDraw (rand (i - 1))) := by
  have hnn : ¬ t.m_size < 0 := by omega
  have hvec : (allocateGatewayMasks t rand).m_obfVector10_plus_obfVector01
      = some ((List.range t.m_size.toNat).map fun z => maskDraw (rand z)) := by
    unfold allocateGatewayMasks
    simp only [hnn, if_false, gatewayMasks_eq]
  have hmem : ∀ i : Nat,
      i ∈ List.range' 1 (t.m_size.toNat - 1) ↔ 1 ≤ i ∧ (i : Int) < t.m_size := by
    intro i
    rw [List.mem_range'_1]
    omega
  obtain ⟨t1, hfold, hroutes⟩ :=
    foldlM_gatewayToSM ((List.range t.m_size.toNat).map fun z => maskDraw (rand z))
      (List.range' 1 (t.m_size.toNat - 1)) (allocateGatewayMasks t rand) hmode hvec
      (by
        intro i hi
        have := (hmem i).mp hi
        rw [List.length_map, List.length_range]
        omega)
  refine ⟨t1, _, hvec, rfl, ?_, hroutes, hmem, ?_⟩
  · unfold InstallApplicationGatewayToSMs
    rw [if_neg (show ¬ (allocateGatewayMasks t rand).m_size < 0 from hnn)]
    exact hfold
  · intro i h1 hlt
    have hlt2 : i - 1 < t.m_size.toNat := by omega
    rw [List.getD_eq_getElem?_getD, List.getElem?_map, List.getElem?_range hlt2]
    rfl

/-- C22 as amended, for `--size=3` with the draws 0, 1, 2. -/
theorem gateway_distribution_index_witness :
    ∃ t1 c, (allocateGatewayMasks gatewayOfThree fun z => z).m_obfVector10_plus_obfVector01
          = some c
      ∧ c = (List.range gatewayOfThree.m_size.toNat).map (fun z => maskDraw ((fun z => z) z))
      ∧ InstallApplicationGatewayToSMs (allocateGatewayMasks gatewayOfThree fun z => z)
          = some t1
      ∧ gatewayRoutes t1.installed = gatewayRoutes gatewayOfThree.installed ++
          ((List.range' 1 (gatewayOfThree.m_size.toNat - 1)).map fun (i : Nat) =>
            ((0 : Int), (i : Int), some (singlePayload (c.getD (i - 1) 0))))
      ∧ (∀ i : Nat, i ∈ List.range' 1 (gatewayOfThree.m_size.toNat - 1)
          ↔ 1 ≤ i ∧ (i : Int) < gatewayOfThree.m_size)
      ∧ (∀ i : Nat, 1 ≤ i → (i : Int) < gatewayOfThree.m_size →
          c.getD (i - 1) 0 = maskDraw ((fun z => z) (i - 1))) :=
  gateway_distribution_index gatewayOfThree (fun z => z) (by decide) (by decide)

/-- C25, the signature length of the receiver wraps.  In `PacketSinkTs::HandleRead` the
signature length is `packetSize - 12` computed in `size_t`.  For every received packet of
`s` bytes with `0 < s < 12` it is `2^64 - (12 - s)`.  The packet that `SendPacket` builds
from a one-value payload `1$x*` has 8 bytes, and for 8 bytes the signature length is
`2^64 - 4`.  For a packet size `s > 0` (a `uint32_t`) the signature length is the integer
`s - 12` exactly when `s ≥ 12`. -/
theorem signatureLength_wraps :
    (∀ s : Nat, 0 < s → s < 12 →
        (HandleRead s).map (fun r => r.signatureLength)
          = some (18446744073709551616 - (12 - s)))
      ∧ (∀ (x : Int) (mode : Nat), IsInt32 x → mode ≤ 2 →
          ∃ app1, SendPacket (freshSender mode (singlePayload x)) = some app1
            ∧ app1.sent = [{ values := [x], size := 8 }])
      ∧ (HandleRead 8).map (fun r => r.signatureLength) = some (18446744073709551616 - 4)
      ∧ (∀ s : Nat, 0 < s → s < 4294967296 →
          ((HandleRead s).map (fun r => (r.signatureLength : Int)) = some ((s : Int) - 12)
            ↔ 12 ≤ s)) := by
  refine ⟨?_, ?_, rfl, ?_⟩
  · intro s h0 h12
    have hs : s ≠ 0 := by omega
    simp only [HandleRead, if_neg hs, Option.map_some']
    apply congrArg some
    omega
  · intro x mode hx hmode
    have hsend := SendPacket_starred (freshSender mode (singlePayload x)) 1 [intToText x]
      hmode (singlePayload_starred x) (by decide)
      (by
        intro t ht
        rw [List.mem_singleton] at ht
        rw [ht]
        exact intToText_no_star x)
      (by simp)
    refine ⟨_, hsend, ?_⟩
    simp [freshSender, atoi_intToText x hx]
  · intro s h0 h32
    have hs : s ≠ 0 := by omega
    simp only [HandleRead, if_neg hs, Option.map_some']
    constructor
    · intro h
      have := Option.some.inj h
      omega
    · intro h
      apply congrArg some
      omega

/-- C24, the parser pads with zeros.  Take a payload `count ++ "$" ++ pieces` in which the
text before the first `$` reads (through `atoi`) as the declared count `c ≥ 0` and which has
`k ≤ c` pieces, each closed by `*`.  The parser of `SendPacket` returns a vector, with no
error path taken: it has exactly `c` entries, entry `j < k` is the `atoi` value of piece `j`
(the leading integer of the piece, 0 when the piece does not start with white space, a sign
or a digit), and the entries from `k` on are 0.  The payload `3$10*20*` gives `[10, 20, 0]`. -/
theorem parser_pads_zeros (count : Text) (c : Nat) (pieces : List Text)
    (hdollar : '$' ∉ count) (hc : atoi count = (c : Int))
    (hstar : ∀ t ∈ pieces, '*' ∉ t) (hk : pieces.length ≤ c) :
    (∃ v, decode (count ++ '$' :: starred pieces) = some v
        ∧ v.length = c
        ∧ (∀ j, j < pieces.length → v.getD j 0 = atoi (pieces.getD j []))
        ∧ (∀ j, pieces.length ≤ j → j < c → v.getD j 0 = 0))
      ∧ (∀ t, NonNumeric t → atoi t = 0)
      ∧ decode "3$10*20*".toList = some [10, 20, 0] := by
  refine ⟨⟨pieces.map atoi ++ List.replicate (c - pieces.length) 0, ?_, ?_, ?_, ?_⟩,
    atoi_nonNumeric, by decide⟩
  · rw [decode_starred count pieces hdollar hstar (by rw [hc]; exact_mod_cast hk), hc]
    rfl
  · simp
    omega
  · intro j hj
    rw [List.getD_eq_getElem?_getD, List.getD_eq_getElem?_getD,
      List.getElem?_append_left (by simpa using hj), List.getElem?_map,
      List.getElem?_eq_getElem hj]
    simp
  · intro j hkj hjc
    rw [List.getD_eq_getElem?_getD,
      List.getElem?_append_right (by simpa using hkj), List.length_map,
      List.getElem?_replicate]
    rw [if_pos (by omega)]
    rfl

/-- C24 at the payload `3$10*20*`. -/
theorem parser_pads_zeros_witness :
    (∃ v, decode ("3".toList ++ '$' :: starred ["10".toList, "20".toList]) = some v
        ∧ v.length = 3
        ∧ (∀ j, j < ["10".toList, "20".toList].length →
            v.getD j 0 = atoi (["10".toList, "20".toList].getD j []))
        ∧ (∀ j, ["10".toList, "20".toList].length ≤ j → j < 3 → v.getD j 0 = 0))
      ∧ (∀ t, NonNumeric t → atoi t = 0)
      ∧ decode "3$10*20*".toList = some [10, 20, 0] :=
  parser_pads_zeros "3".toList 3 ["10".toList, "20".toList] (by decide) (by decide)
    (by decide) (by decide)

/-- C28, sending consumes the count.  When `SendPacket` returns on a stored text
`before ++ "$" ++ rest` with no `$` in `before`, the stored `m_obfsValues` is `rest`; and it
does return, leaving the pieces, on every payload whose count fits its pieces.  A second
run of the parsing block on a stored text that starts with the piece `tok` (closed by `*`)
reads its count from that piece: it is `atoi tok`.  For `4$100*200*150*95*` the stored text
becomes `100*200*150*95*`, whose second parse declares the count 100. -/
theorem sendPacket_consumes_count :
    (∀ (app app1 : OnOffMLM) (before rest : Text),
        app.m_obfsValues = before ++ '$' :: rest → '$' ∉ before →
        SendPacket app = some app1 → app1.m_obfsValues = rest)
      ∧ (∀ (app : OnOffMLM) (count : Text) (n : Nat) (pieces : List Text),
          app.m_trsmode ≤ 2 → app.m_obfsValues = count ++ '$' :: starred pieces →
          '$' ∉ count → atoi count = (n : Int) → n ≤ 536870910 →
          (∀ t ∈ pieces, '*' ∉ t) → pieces.length ≤ n →
          ∃ app1, SendPacket app = some app1 ∧ app1.m_obfsValues = starred pieces)
      ∧ (∀ tok more : Text, '$' ∉ tok →
          atoi (splitAtDelim '$' (tok ++ '*' :: more)).1 = atoi tok)
      ∧ (SendPacket (freshSender 0 "4$100*200*150*95*".toList)).map (fun a => a.m_obfsValues)
          = some "100*200*150*95*".toList
      ∧ (parseObfsValues "100*200*150*95*".toList).map (fun r => r.arraySize) = some 100 := by
  refine ⟨?_, ?_, second_count, by decide, by decide⟩
  · intro app app1 before rest hpay hbefore hsend
    unfold SendPacket at hsend
    split at hsend
    · split at hsend
      · exact absurd hsend (by simp)
      · rename_i r hr
        dsimp only at hsend
        split at hsend
        · exact absurd hsend (by simp)
        · rw [← Option.some.inj hsend]
          show r.m_obfsValues = rest
          unfold parseObfsValues at hr
          rw [hpay, substrAfterDollar_append _ _ hbefore] at hr
          dsimp only at hr
          split at hr
          · exact absurd hr (by simp)
          · split at hr
            · exact absurd hr (by simp)
            · rw [← Option.some.inj hr]
    · exact absurd hsend (by simp)
  · intro app count n pieces hmode hpay hcount hn hfit hstar hk
    exact ⟨_, SendPacket_counted app count n pieces hmode hpay hcount hn hfit hstar hk, rfl⟩

/-- C30, packet length.  For a payload whose count text reads as `n` and which has at most
`n` pieces (`4 * n + 4` being an `int` value, as `plainTextLength` is an `int`), `SendPacket`
returns and hands the socket one packet of exactly `4 * n + 4` bytes; the packet holds the
`n` parsed values in index order, which fill its first `4 * n` bytes, so that its last 4
bytes come from no parsed value; and `m_totBytes` grows by `m_pktSize` (the sum is a
`uint32_t`), not by the packet length.  For `[100, 200, 150, 95]` with the default
`PacketSize` the packet has 20 bytes and the counter goes to 512. -/
theorem packet_length (app : OnOffMLM) (count : Text) (n : Nat) (pieces : List Text)
    (hmode : app.m_trsmode ≤ 2) (hpay : app.m_obfsValues = count ++ '$' :: starred pieces)
    (hcount : '$' ∉ count) (hn : atoi count = (n : Int)) (hfit : n ≤ 536870910)
    (hstar : ∀ t ∈ pieces, '*' ∉ t) (hk : pieces.length ≤ n) :
    (∃ app1 values, SendPacket app = some app1
        ∧ app1.sent = app.sent ++ [{ values := values, size := 4 * n + 4 }]
        ∧ decode app.m_obfsValues = some values
        ∧ values.length = n
        ∧ (4 * n + 4) - 4 * values.length = 4
        ∧ app1.m_totBytes = (app.m_totBytes + app.m_pktSize) % 4294967296)
      ∧ (SendPacket (freshSender 0 (encodeValues [100, 200, 150, 95]))).map
          (fun a => (a.sent, a.m_totBytes))
        = some ([{ values := [100, 200, 150, 95], size := 20 }], 512) := by
  refine ⟨⟨_, pieces.map atoi ++ List.replicate (n - pieces.length) 0,
    SendPacket_counted app count n pieces hmode hpay hcount hn hfit hstar hk, ?_, ?_, ?_, ?_,
    rfl⟩, by decide⟩
  · simp
    omega
  · rw [hpay, decode_starred count pieces hcount hstar (by rw [hn]; exact_mod_cast hk), hn]
    rfl
  · simp
    omega
  · simp
    omega

/-- C30 at the payload `2$7*` with `PacketSize` 512: a packet of 12 bytes. -/
theorem packet_length_witness :
    (∃ app1 values, SendPacket (freshSender 1 ("2".toList ++ '$' :: starred ["7".toList]))
          = some app1
        ∧ app1.sent = (freshSender 1 ("2".toList ++ '$' :: starred ["7".toList])).sent
            ++ [{ values := values, size := 4 * 2 + 4 }]
        ∧ decode (freshSender 1 ("2".toList ++ '$' :: starred ["7".toList])).m_obfsValues
            = some values
        ∧ values.length = 2
        ∧ (4 * 2 + 4) - 4 * values.length = 4
        ∧ app1.m_totBytes
            = ((freshSender 1 ("2".toList ++ '$' :: starred ["7".toList])).m_totBytes
                + (freshSender 1 ("2".toList ++ '$' :: starred ["7".toList])).m_pktSize)
              % 4294967296)
      ∧ (SendPacket (freshSender 0 (encodeValues [100, 200, 150, 95]))).map
          (fun a => (a.sent, a.m_totBytes))
        = some ([{ values := [100, 200, 150, 95], size := 20 }], 512) :=
  packet_length (freshSender 1 ("2".toList ++ '$' :: starred ["7".toList])) "2".toList 2
    ["7".toList] (by decide) rfl (by decide) (by decide) (by decide) (by decide) (by decide)

/-- C26, unblinding by the Aggregator's own state.  In TCP mode (the branch in which masks
are drawn and values reported), run the two exchange installers and then a collection
installer.  The exchange leaves a combined mask `c` with one entry per node, every entry in
`[-40, 38]`.  Each collection installer returns, and the value carried by the sender of
Member `i` in pass `j` is `c[i]` plus the single draw `rand () % 50 + 50` of that pass.  For
every entry of `c` and every raw value `r` of `rand ()`: the reported value minus `c[i]` is
the draw, the draw lies in `[50, 100)`, and the reported value lies in `[10, 137]`, hence is
strictly positive. -/
theorem reported_value_bounds (t : MeshTest) (seeded : Nat → Nat)
    (hmode : t.m_UdpTcpMode ≠ "udp") (hn : 0 ≤ nodeCount t) :
    ∃ t1 t2 c, InstallApplicationLead0ToLead1 t seeded = some t1
      ∧ InstallApplicationLead1ToLead0 t1 = some t2
      ∧ t2.m_obfVector10_plus_obfVector01 = some c
      ∧ c.length = (nodeCount t).toNat
      ∧ (∀ x ∈ c, -40 ≤ x ∧ x ≤ 38)
      ∧ (∃ t3, InstallApplicationOddMetersToLead1 t2 = some t3
          ∧ senderRoutes t3.installed = senderRoutes t2.installed ++
              ((oddMeters (nodeCount t).toNat).mapIdx fun j (i : Nat) =>
                ((i : Int), (1 : Int),
                  encodeValues [addInt (c.getD i 0) (secondStageDraw (t2.rand j))])))
      ∧ (∃ t3, InstallApplicationEvenMetersToLead0 t2 = some t3
          ∧ senderRoutes t3.installed = senderRoutes t2.installed ++
              ((evenMeters (nodeCount t).toNat).mapIdx fun j (i : Nat) =>
                ((i : Int), (0 : Int),
                  encodeValues [addInt (c.getD i 0) (secondStageDraw (t2.rand j))])))
      ∧ (∀ i r : Nat, i < c.length →
          addInt (c.getD i 0) (secondStageDraw r) - c.getD i 0 = secondStageDraw r
            ∧ 50 ≤ secondStageDraw r ∧ secondStageDraw r < 100
            ∧ 10 ≤ addInt (c.getD i 0) (secondStageDraw r)
            ∧ addInt (c.getD i 0) (secondStageDraw r) ≤ 137
            ∧ 0 < addInt (c.getD i 0) (secondStageDraw r)) := by
  obtain ⟨t1, h1, hm1, hn1, h01⟩ := lead0ToLead1_frame t seeded hmode hn
  have hmode1 : t1.m_UdpTcpMode ≠ "udp" := by rw [hm1]; exact hmode
  obtain ⟨t2, h2, hm2, hn2, hc2, hf2⟩ :=
    lead1ToLead0_frame t1 (drawMasks seeded (nodeCount t).toNat) hmode1
      (by rw [hn1]; exact hn) h01 (by rw [hn1, drawMasks_length])
  rw [hn1] at hc2 hf2 hn2
  have hmode2 : t2.m_UdpTcpMode ≠ "udp" := by rw [hm2]; exact hmode1
  obtain ⟨c, hcdef⟩ : ∃ c, c = (List.range (nodeCount t).toNat).map fun y =>
      addInt ((drawMasks t1.rand (nodeCount t).toNat).getD y 0)
        ((drawMasks seeded (nodeCount t).toNat).getD y 0) := ⟨_, rfl⟩
  rw [← hcdef] at hc2
  have hclen : c.length = (nodeCount t).toNat := by
    rw [hcdef, List.length_map, List.length_range]
  have hbound : ∀ x ∈ c, -40 ≤ x ∧ x ≤ 38 := by
    intro x hx
    rw [hcdef] at hx
    obtain ⟨y, hy, rfl⟩ := List.mem_map.mp hx
    have hlt : y < (nodeCount t).toNat := List.mem_range.mp hy
    rw [drawMasks_getD _ _ _ hlt, drawMasks_getD _ _ _ hlt]
    exact addInt_masks_range _ _
  obtain ⟨hodd, heven⟩ := collection_routes t2 c (List.replicate (nodeCount t).toNat 0)
    hmode2 hc2 hf2 (by rw [hn2]; exact hn) (by rw [hn2, hclen])
    (by rw [hn2, List.length_replicate])
  rw [hn2] at hodd heven
  refine ⟨t1, t2, c, h1, h2, hc2, hclen, hbound, hodd, heven, ?_⟩
  intro i r hi
  have hmem : c.getD i 0 ∈ c := by
    rw [List.getD_eq_getElem?_getD, List.getElem?_eq_getElem hi]
    exact List.getElem_mem _
  have hd := secondStageDraw_range r
  obtain ⟨e1, e2, e3, e4⟩ := reported_range (c.getD i 0) (secondStageDraw r) (hbound _ hmem) hd
  exact ⟨e1, hd.1, hd.2, e2, e3, e4⟩

/-- C26 on the default 2 by 2 grid, every call of `rand ()` returning 0. -/
theorem reported_value_bounds_witness :
    ∃ t1 t2 c, InstallApplicationLead0ToLead1 (defaultMeshTest fun _ => 0) (fun _ => 0)
          = some t1
      ∧ InstallApplicationLead1ToLead0 t1 = some t2
      ∧ t2.m_obfVector10_plus_obfVector01 = some c
      ∧ c.length = (nodeCount (defaultMeshTest fun _ => 0)).toNat
      ∧ (∀ x ∈ c, -40 ≤ x ∧ x ≤ 38)
      ∧ (∃ t3, InstallApplicationOddMetersToLead1 t2 = some t3
          ∧ senderRoutes t3.installed = senderRoutes t2.installed ++
              ((oddMeters (nodeCount (defaultMeshTest fun _ => 0)).toNat).mapIdx
                fun j (i : Nat) =>
                  ((i : Int), (1 : Int),
                    encodeValues [addInt (c.getD i 0) (secondStageDraw (t2.rand j))])))
      ∧ (∃ t3, InstallApplicationEvenMetersToLead0 t2 = some t3
          ∧ senderRoutes t3.installed = senderRoutes t2.installed ++
              ((evenMeters (nodeCount (defaultMeshTest fun _ => 0)).toNat).mapIdx
                fun j (i : Nat) =>
                  ((i : Int), (0 : Int),
                    encodeValues [addInt (c.getD i 0) (secondStageDraw (t2.rand j))])))
      ∧ (∀ i r : Nat, i < c.length →
          addInt (c.getD i 0) (secondStageDraw r) - c.getD i 0 = secondStageDraw r
            ∧ 50 ≤ secondStageDraw r ∧ secondStageDraw r < 100
            ∧ 10 ≤ addInt (c.getD i 0) (secondStageDraw r)
            ∧ addInt (c.getD i 0) (secondStageDraw r) ≤ 137
            ∧ 0 < addInt (c.getD i 0) (secondStageDraw r)) :=
  reported_value_bounds (defaultMeshTest fun _ => 0) (fun _ => 0) (by decide) (by decide)

/-- C27, the mask vectors are set before use only in session type 1.  Take the script in TCP
mode with `N ≥ 4` nodes, the combined mask and `m_finalObfVector` not yet assigned.  With
session type 1 `Run` returns, whatever `m_obfVector01` and `m_obfVector10` hold at the start
(nothing, in the program): no installer reads `m_obfVector01` or the combined mask before
the installer that fills it has run.  With session type 2 the first installer called,
`InstallApplicationLead1ToOddMeters`, reads the unset combined mask, and with session type 3
the first installer called, `InstallApplicationOddMetersToLead1`, does so too; it would also
store into `m_finalObfVector`, which is unset even if the combined mask is given. -/
theorem masks_set_before_use (t : MeshTest) (seeded : Nat → Nat)
    (hmode : t.m_UdpTcpMode ≠ "udp") (hn : 4 ≤ nodeCount t)
    (hc : t.m_obfVector10_plus_obfVector01 = none) (hf : t.m_finalObfVector = none) :
    (t.m_typeOfOperation = 1 → ∃ t3, Run t seeded = some t3)
      ∧ (t.m_typeOfOperation = 2 →
          InstallApplicationLead1ToOddMeters t = none ∧ Run t seeded = none)
      ∧ (t.m_typeOfOperation = 3 →
          InstallApplicationOddMetersToLead1 t = none ∧ Run t seeded = none)
      ∧ (∀ c : List Int, InstallApplicationOddMetersToLead1
            { t with m_obfVector10_plus_obfVector01 := some c } = none) := by
  have hnn : ¬ nodeCount t < 0 := by omega
  have h4 : 4 ≤ (nodeCount t).toNat := by omega
  obtain ⟨others, hodd⟩ := oddMeters_head (nodeCount t).toNat h4
  have hdist : InstallApplicationLead1ToOddMeters t = none := by
    unfold InstallApplicationLead1ToOddMeters
    rw [if_neg hnn, hodd]
    apply foldlM_none_head
    unfold lead1ToOddMeter
    rw [if_neg hmode, hc]
  have hcoll : ∀ u : MeshTest, u.m_UdpTcpMode ≠ "udp" → nodeCount u = nodeCount t →
      (u.m_obfVector10_plus_obfVector01 = none ∨ u.m_finalObfVector = none) →
      InstallApplicationOddMetersToLead1 u = none := by
    intro u hu hnu hunset
    unfold InstallApplicationOddMetersToLead1
    rw [hnu, if_neg hnn, hodd, foldlM_none_head]
    · rfl
    · rw [oddMeterToLead1_tcp u 3 hu, blindMeter_unset u 3 hunset]
      rfl
  refine ⟨?_, ?_, ?_, ?_⟩
  · intro htype
    obtain ⟨t1, h1, hm1, hn1, hv1⟩ := lead0ToLead1_frame t seeded hmode (by omega)
    have hmode1 : t1.m_UdpTcpMode ≠ "udp" := by rw [hm1]; exact hmode
    obtain ⟨t2, h2, hm2, hn2, hc2, _⟩ :=
      lead1ToLead0_frame t1 (drawMasks seeded (nodeCount t).toNat) hmode1
        (by rw [hn1]; omega) hv1 (by rw [hn1, drawMasks_length])
    rw [hn1] at hc2 hn2
    have hmode2 : t2.m_UdpTcpMode ≠ "udp" := by rw [hm2]; exact hmode1
    have h3 := foldlM_lead1ToOddMeter _ (oddMeters (nodeCount t).toNat) t2 hmode2 hc2
      (by
        intro i hi
        have := (mem_oddMeters _ _).mp hi
        rw [List.length_map, List.length_range]
        omega)
    unfold Run
    rw [if_pos htype, h1, Option.some_bind, h2, Option.some_bind]
    unfold InstallApplicationLead1ToOddMeters
    rw [hn2, if_neg hnn, h3]
    exact ⟨_, rfl⟩
  · intro htype
    refine ⟨hdist, ?_⟩
    unfold Run
    rw [if_neg (by omega), if_pos htype, hdist]
    rfl
  · intro htype
    have h := hcoll t hmode rfl (Or.inl hc)
    refine ⟨h, ?_⟩
    unfold Run
    rw [if_neg (by omega), if_neg (by omega), if_pos htype, h]
    rfl
  · intro c
    exact hcoll _ hmode rfl (Or.inr hf)

/-- C27 on the default 2 by 2 grid in TCP mode, as the constructor leaves it: none of the
four vectors assigned. -/
theorem masks_set_before_use_witness :
    ((defaultMeshTest fun _ => 0).m_typeOfOperation = 1 →
        ∃ t3, Run (defaultMeshTest fun _ => 0) (fun _ => 0) = some t3)
      ∧ ((defaultMeshTest fun _ => 0).m_typeOfOperation = 2 →
          InstallApplicationLead1ToOddMeters (defaultMeshTest fun _ => 0) = none
            ∧ Run (defaultMeshTest fun _ => 0) (fun _ => 0) = none)
      ∧ ((defaultMeshTest fun _ => 0).m_typeOfOperation = 3 →
          InstallApplicationOddMetersToLead1 (defaultMeshTest fun _ => 0) = none
            ∧ Run (defaultMeshTest fun _ => 0) (fun _ => 0) = none)
      ∧ (∀ c : List Int, InstallApplicationOddMetersToLead1
            { (defaultMeshTest fun _ => 0) with m_obfVector10_plus_obfVector01 := some c }
          = none) :=
  masks_set_before_use (defaultMeshTest fun _ => 0) (fun _ => 0) (by decide) (by decide)
    rfl rfl

end StateEst
